import Mathlib

/-!
Verification of the fotmob scraping pipeline
(`football_graph/management/commands/scrape_data.py` plus the models in
`football_graph/models.py`).

Python strings are modelled as `List Char`.  Python floats are modelled as
exact decimals (mantissa and power-of-ten scale) on the grammar
`[sign] digits [. digits]` that the scraped values use (no exponents, inf,
nan or underscores, which never occur in these inputs); the concrete values
the spec tests (45.5, 750, …) are exact in binary floating point, so the
idealisation agrees with CPython on them, and `decVal` gives the rational
reading.  A Python exception escaping a modelled function is
`Except.error ()`; `None` is `Option.none`.
-/

set_option maxHeartbeats 1000000

abbrev Str := List Char

/-- Conversion from a Lean string literal to the `List Char` model. -/
def pys (s : String) : Str := s.data

/-- ASCII whitespace as recognised by Python's `str.strip` / `str.split`. -/
def isWs (c : Char) : Bool :=
  c = ' ' || c = '\t' || c = '\n' || c = '\r' || c = '\x0b' || c = '\x0c'

/-- Python `str.strip()` (no argument): drop whitespace at both ends. -/
def pyStrip (s : Str) : Str :=
  ((s.dropWhile isWs).reverse.dropWhile isWs).reverse

/-- Python `str.upper()` on the ASCII letters occurring in the scraped data. -/
def toUpperStr (s : Str) : Str := s.map Char.toUpper

/-- Python `str.replace(c, '')` for a single character: drop all occurrences. -/
def removeAll (c : Char) (s : Str) : Str := s.filter (fun d => d != c)

/-- Python `str.replace(a, b)` for single characters: map all occurrences. -/
def mapReplace (a b : Char) (s : Str) : Str :=
  s.map (fun c => if c = a then b else c)

/-- Model: `strStartsB pat s`: `s.startswith(pat)` in Python. -/
def strStartsB : Str → Str → Bool
  | [], _ => true
  | _ :: _, [] => false
  | p :: ps, c :: cs => p == c && strStartsB ps cs

/-- Model: `strHasSub pat s`: Python's `pat in s` substring test. -/
def strHasSub (pat : Str) : Str → Bool
  | [] => strStartsB pat []
  | c :: rest => strStartsB pat (c :: rest) || strHasSub pat rest

/-- Model: `s.endswith(c)` for a single character. -/
def strEndsChar (s : Str) (c : Char) : Bool :=
  match s.getLast? with
  | some d => d == c
  | none => false

/-- Model: `s.endswith(pat)` for a string pattern. -/
def strEndsStr (s pat : Str) : Bool := strStartsB pat.reverse s.reverse

/-- Python slicing `s[:-n]` (empty when `n ≥ len(s)`). -/
def dropRightN (s : Str) (n : Nat) : Str := s.take (s.length - n)

/-- Python `str.split(c)` on a single separator character. -/
def splitOnChar (c : Char) : Str → List Str
  | [] => [[]]
  | d :: rest =>
    match splitOnChar c rest with
    | [] => [[]]
    | s :: ss => if d = c then [] :: s :: ss else (d :: s) :: ss

/-- Worker for Python `str.split()`: fuel-indexed so that evaluation is
structural (the fuel, set to the string length by `pySplitWS`, never runs
out because each step consumes at least one character). -/
def wsSplit : Nat → Str → List Str
  | _, [] => []
  | 0, _ => []
  | fuel + 1, c :: rest =>
    if isWs c then wsSplit fuel rest
    else (c :: rest.takeWhile (fun d => !(isWs d))) ::
      wsSplit fuel (rest.dropWhile (fun d => !(isWs d)))

/-- Python `str.split()` (no argument): whitespace split, empty tokens dropped. -/
def pySplitWS (s : Str) : List Str := wsSplit s.length s

/-- Numeric value of a digit string (most significant first). -/
def natOfDigits (s : Str) : Nat :=
  s.foldl (fun a c => a * 10 + (c.toNat - 48)) 0

/-- Python `str.isdigit()` on the ASCII digits occurring in the data. -/
def allDigits (s : Str) : Bool := s.all Char.isDigit

/-- Python `int(str)`: optional surrounding whitespace, optional sign,
nonempty run of digits; anything else raises (modelled as `none`). -/
def pyInt? (s : Str) : Option Int :=
  match pyStrip s with
  | [] => none
  | c :: rest =>
    if c = '-' then
      if rest ≠ [] ∧ allDigits rest then some (-(natOfDigits rest : Int)) else none
    else if c = '+' then
      if rest ≠ [] ∧ allDigits rest then some (natOfDigits rest : Int) else none
    else
      if allDigits (c :: rest) then some (natOfDigits (c :: rest) : Int) else none

/-- Unsigned part of Python `float(str)`: digits with at most one dot and at
least one digit in total.  The value is the exact decimal
`mantissa / 10 ^ scale`, returned unreduced so that every operation on it is
plain `Nat`/`Int` arithmetic. -/
def pyFloatMag? (v : Str) : Option (Nat × Nat) :=
  if v.count '.' = 0 then
    if v ≠ [] ∧ allDigits v then some (natOfDigits v, 0) else none
  else if v.count '.' = 1 then
    let ip := v.takeWhile (fun d => d != '.')
    let fp := (v.dropWhile (fun d => d != '.')).tail
    if (ip ≠ [] ∨ fp ≠ []) ∧ allDigits ip ∧ allDigits fp then
      some (natOfDigits ip * 10 ^ fp.length + natOfDigits fp, fp.length)
    else none
  else none

/-- Python `float(str)` on the decimal grammar used by the scraped values,
as an exact signed decimal `(mantissa, scale)` with value
`mantissa / 10 ^ scale`. -/
def pyFloat? (s : Str) : Option (Int × Nat) :=
  match pyStrip s with
  | [] => none
  | c :: rest =>
    if c = '-' then (pyFloatMag? rest).map (fun d => (-(d.1 : Int), d.2))
    else if c = '+' then (pyFloatMag? rest).map (fun d => ((d.1 : Int), d.2))
    else (pyFloatMag? (c :: rest)).map (fun d => ((d.1 : Int), d.2))

/-- The rational value of a decimal `(mantissa, scale)`. -/
def decVal (d : Int × Nat) : ℚ := (d.1 : ℚ) / (10 : ℚ) ^ d.2

/-- Python `int(float * m)` on an exact decimal: truncation toward zero of
`mantissa * m / 10 ^ scale`. -/
def decTruncMul (d : Int × Nat) (m : Nat) : Int :=
  match d.1 with
  | Int.ofNat n => Int.ofNat (n * m / 10 ^ d.2)
  | Int.negSucc k => -(Int.ofNat ((k + 1) * m / 10 ^ d.2))

/-- A Python number: the scraping code stores either `int` or `float` values.
Floats are carried as the exact decimal produced by the parse. -/
inductive PyNum where
  | int : Int → PyNum
  | float : Int → Nat → PyNum
deriving DecidableEq

instance exceptDecEq {ε α : Type} [DecidableEq ε] [DecidableEq α] :
    DecidableEq (Except ε α) := fun x y =>
  match x, y with
  | .ok a, .ok b =>
    if h : a = b then isTrue (by rw [h])
    else isFalse (by intro hc; cases hc; exact h rfl)
  | .error a, .error b =>
    if h : a = b then isTrue (by rw [h])
    else isFalse (by intro hc; cases hc; exact h rfl)
  | .ok _, .error _ => isFalse (by intro hc; cases hc)
  | .error _, .ok _ => isFalse (by intro hc; cases hc)

/-- Model: `parse_stat_value` from `scrape_data.py`: strip one trailing percent sign,
turn commas into dots, then `float` if a dot is present else `int`;
any parse failure yields `None`. -/
def psvStripPct (value : Str) : Str :=
  if strEndsChar value '%' then dropRightN value 1 else value

def psvNum (v2 : Str) : Option PyNum :=
  if v2.contains '.' then (pyFloat? v2).map (fun d => PyNum.float d.1 d.2)
  else (pyInt? v2).map PyNum.int

def parse_stat_value (value : Str) : Option PyNum :=
  psvNum (mapReplace ',' '.' (psvStripPct value))

/-- The normalisation prefix of `parse_market_value`:
`value.replace(€, '').strip().upper()`. -/
def pmvNorm (value : Str) : Str := toUpperStr (pyStrip (removeAll '€' value))

/-- Model: `parse_market_value` from `scrape_data.py`.  The `M` and `K` branches call
`float` outside any `try`, so a suffix with an unparsable prefix raises
(`Except.error ()`); only the plain-integer branch catches and returns `None`. -/
def pmvSuffix (v : Str) : Except Unit (Option Int) :=
  if strEndsChar v 'M' then
    match pyFloat? (dropRightN v 1) with
    | some d => .ok (some (decTruncMul d 1000000))
    | none => .error ()
  else if strEndsChar v 'K' then
    match pyFloat? (dropRightN v 1) with
    | some d => .ok (some (decTruncMul d 1000))
    | none => .error ()
  else .ok (pyInt? v)

def parse_market_value (value : Str) : Except Unit (Option Int) :=
  pmvSuffix (pmvNorm value)

/-- The market-value parser exactly as the spec claims it: strip the currency
symbol, uppercase, strip thousands separators, and return null on every
unparsable input.  Used only to compare the claim against the source. -/
def parse_market_value_claim (value : Str) : Option Int :=
  let v := toUpperStr (pyStrip (removeAll ',' (removeAll '€' value)))
  if strEndsChar v 'M' then
    (pyFloat? (dropRightN v 1)).map (fun d => decTruncMul d 1000000)
  else if strEndsChar v 'K' then
    (pyFloat? (dropRightN v 1)).map (fun d => decTruncMul d 1000)
  else pyInt? v

/-- The columns of the `Data` model (`models.py`), i.e. the keys of
`data_match_dict` in `scrape_data.py`. -/
inductive DataField where
  | goals | expected_goals | xg_on_target | penalty_goals | non_penalty_xg
  | shots | shots_on_target
  | assists | expected_assists | successful_passes | pass_accuracy
  | accurate_long_balls | long_ball_accuracy | chances_created
  | successful_crosses | cross_accuracy
  | successful_dribbles | dribble_success | touches | touches_in_opposition_box
  | dispossessed | fouls_won | penalties_awarded
  | tackles_won | tackles_won_percentage | duels_won | duels_won_percentage
  | aerial_duels_won | aerial_duels_won_percentage | interceptions | blocked
  | fouls_committed | recoveries | possession_won_final_3rd | dribbled_past
  | yellow_cards | red_cards
  | saves | save_percentage | goals_conceded | goals_prevented | clean_sheets
  | error_led_to_goal | high_claim
  | gk_pass_accuracy | gk_accurate_long_balls | gk_long_ball_accuracy
deriving DecidableEq, Fintype

/-- Model: `data_match_dict` from `scrape_player_with_driver`, in source order:
field key to page label.  Note that `pass_accuracy` / `gk_pass_accuracy`,
`accurate_long_balls` / `gk_accurate_long_balls` and `long_ball_accuracy` /
`gk_long_ball_accuracy` share their labels. -/
def data_match_dict : List (DataField × Str) := [
  (.goals, pys "Goals"),
  (.expected_goals, pys "Expected goals (xG)"),
  (.xg_on_target, pys "xG on target (xGOT)"),
  (.penalty_goals, pys "Penalty goals"),
  (.non_penalty_xg, pys "Non-penalty xG"),
  (.shots, pys "Shots"),
  (.shots_on_target, pys "Shots on target"),
  (.assists, pys "Assists"),
  (.expected_assists, pys "Expected assists (xA)"),
  (.successful_passes, pys "Successful passes"),
  (.pass_accuracy, pys "Pass accuracy"),
  (.accurate_long_balls, pys "Accurate long balls"),
  (.long_ball_accuracy, pys "Long ball accuracy"),
  (.chances_created, pys "Chances created"),
  (.successful_crosses, pys "Successful crosses"),
  (.cross_accuracy, pys "Cross accuracy"),
  (.successful_dribbles, pys "Successful dribbles"),
  (.dribble_success, pys "Dribble success"),
  (.touches, pys "Touches"),
  (.touches_in_opposition_box, pys "Touches in opposition box"),
  (.dispossessed, pys "Dispossessed"),
  (.fouls_won, pys "Fouls won"),
  (.penalties_awarded, pys "Penalties awarded"),
  (.tackles_won, pys "Tackles won"),
  (.tackles_won_percentage, pys "Tackles won %"),
  (.duels_won, pys "Duels won"),
  (.duels_won_percentage, pys "Duels won %"),
  (.aerial_duels_won, pys "Aerial duels won"),
  (.aerial_duels_won_percentage, pys "Aerial duels won %"),
  (.interceptions, pys "Interceptions"),
  (.blocked, pys "Blocked"),
  (.fouls_committed, pys "Fouls committed"),
  (.recoveries, pys "Recoveries"),
  (.possession_won_final_3rd, pys "Possession won final 3rd"),
  (.dribbled_past, pys "Dribbled past"),
  (.yellow_cards, pys "Yellow cards"),
  (.red_cards, pys "Red cards"),
  (.saves, pys "Saves"),
  (.save_percentage, pys "Save percentage"),
  (.goals_conceded, pys "Goals conceded"),
  (.goals_prevented, pys "Goals prevented"),
  (.clean_sheets, pys "Clean sheets"),
  (.error_led_to_goal, pys "Error led to goal"),
  (.high_claim, pys "High claim"),
  (.gk_pass_accuracy, pys "Pass accuracy"),
  (.gk_accurate_long_balls, pys "Accurate long balls"),
  (.gk_long_ball_accuracy, pys "Long ball accuracy")]

/-- First-match lookup in an association list (Python dict read under unique
keys). -/
def dictGet {K V : Type} [DecidableEq K] : List (K × V) → K → Option V
  | [], _ => none
  | e :: es, k => if e.1 = k then some e.2 else dictGet es k

/-- Python dict assignment `d[k] = v`: replace the binding in place if the key
exists, append otherwise. -/
def dictInsert {K V : Type} [DecidableEq K] : List (K × V) → K → V → List (K × V)
  | [], k, v => [(k, v)]
  | e :: es, k, v => if e.1 = k then (k, v) :: es else e :: dictInsert es k v

/-- Number of rows with a given key. -/
def countKey {K V : Type} [DecidableEq K] : List (K × V) → K → Nat
  | [], _ => 0
  | e :: es, k => (if e.1 = k then 1 else 0) + countKey es k

/-- Update in place every row carrying the key (used with at most one match). -/
def updRows {K V : Type} [DecidableEq K] (rows : List (K × V)) (k : K)
    (g : V → V) : List (K × V) :=
  rows.map (fun r => if r.1 = k then (k, g r.2) else r)

/-- A `Data` row / a `stats_data` dict: each bound field holds a parsed value,
which may itself be `None`.  A field not bound in the row reads as null. -/
abbrev StatsDict := List (DataField × Option PyNum)

/-- The value a `Data` row shows for a field: the bound value, or null when
the field was never set. -/
def fieldVal (row : StatsDict) (f : DataField) : Option PyNum :=
  (dictGet row f).getD none

/-- Django `setattr` loop of `update_or_create`'s update path: apply every
binding of `upd` onto the row, leaving other fields untouched. -/
def applySet (row upd : StatsDict) : StatsDict :=
  upd.foldl (fun r e => dictInsert r e.1 e.2) row

/-- The store operations of the pipeline, for the lock-discipline trace. -/
inductive StoreOp where
  | league_goc | club_goc | club_get | player_uoc | data_uoc
deriving DecidableEq

/-- Trace events: acquiring / releasing the single global `db_lock`, and the
execution of one store operation. -/
inductive Ev where
  | acq | rel
  | sop : StoreOp → Ev
deriving DecidableEq

/-- The event trace of a `with db_lock:` block running the given store
operations. -/
def lockEv (ops : List StoreOp) : List Ev :=
  Ev.acq :: ops.map Ev.sop ++ [Ev.rel]

/-- Count the store operations a trace runs while the lock is NOT held. -/
def opsOutside : Nat → List Ev → Nat
  | _, [] => 0
  | d, Ev.acq :: tr => opsOutside (d + 1) tr
  | d, Ev.rel :: tr => opsOutside (d - 1) tr
  | d, Ev.sop _ :: tr => (if d = 0 then 1 else 0) + opsOutside d tr

/-- Count the store operations a trace runs while the lock IS held. -/
def opsInside : Nat → List Ev → Nat
  | _, [] => 0
  | d, Ev.acq :: tr => opsInside (d + 1) tr
  | d, Ev.rel :: tr => opsInside (d - 1) tr
  | d, Ev.sop _ :: tr => (if d = 0 then 0 else 1) + opsInside d tr

/-- The non-key columns set by the `Player.objects.update_or_create` call in
`scrape_player_with_driver`.  `height` is the parsed integer (the model's
`CharField` stores its decimal rendering); `club` is a `Club` row id. -/
structure PlayerFields where
  name : Option Str
  club : Option Nat
  position : Str
  country : Option Str
  shirt_number : Option Int
  age : Option Int
  height : Option Int
  market_value : Option Int
deriving DecidableEq

/-- The `player_data` dict filled by the bio-stat loop of
`scrape_player_with_driver`.  `shirt_number` keeps the raw page text, as in
the source; the int conversion happens only in the upsert defaults. -/
structure BioData where
  height : Option Int
  shirt_number : Option Str
  age : Option Int
  foot : Option Str
  country : Option Str
  market_value : Option Int
deriving DecidableEq

/-- The relational store behind the narrow Django interface the pipeline uses.
`leagues`: id and name; `clubs`: id, name and league id; `players` keyed by
`fotmob_id` (unique per `models.py`); `dataRows` keyed by the player's
`fotmob_id` (standing for the 1:1 player reference). -/
structure DB where
  leagues : List (Nat × Str)
  clubs : List (Nat × Str × Nat)
  players : List (Int × PlayerFields)
  dataRows : List (Int × StatsDict)
  nextId : Nat
deriving DecidableEq

/-- Model: `League.objects.get_or_create(name=nm)`.  A null name cannot be stored
(`name` is a NOT NULL column), and several matches make Django's `get`
raise, both modelled as `Except.error`. -/
def get_or_create_league (db : DB) (nm : Option Str) : Except Unit (Nat × DB) :=
  match nm with
  | none => .error ()
  | some n =>
    match db.leagues.filter (fun l => decide (l.2 = n)) with
    | [l] => .ok (l.1, db)
    | [] => .ok (db.nextId,
        { db with leagues := db.leagues ++ [(db.nextId, n)], nextId := db.nextId + 1 })
    | _ => .error ()

/-- Model: `Club.objects.get_or_create(name=nm, league=lid)`; same error model as
for leagues. -/
def get_or_create_club (db : DB) (nm : Option Str) (lid : Nat) :
    Except Unit (Nat × DB) :=
  match nm with
  | none => .error ()
  | some n =>
    match db.clubs.filter (fun c => decide (c.2.1 = n ∧ c.2.2 = lid)) with
    | [c] => .ok (c.1, db)
    | [] => .ok (db.nextId,
        { db with clubs := db.clubs ++ [(db.nextId, n, lid)], nextId := db.nextId + 1 })
    | _ => .error ()

/-- The club rows matching `Club.objects.get(name=nm)` in the player task. -/
def clubMatches (db : DB) (nm : Str) : List (Nat × Str × Nat) :=
  db.clubs.filter (fun c => decide (c.2.1 = nm))

/-- Model: `Player.objects.update_or_create(fotmob_id=fid, defaults=f)`.  Zero
matches insert, one match overwrites every default field, several matches
raise; writing a null `name` or `country` violates the NOT NULL columns of
`models.Player` and raises as well. -/
def update_or_create_player (rows : List (Int × PlayerFields)) (fid : Int)
    (f : PlayerFields) : Except Unit (List (Int × PlayerFields)) :=
  if f.name = none ∨ f.country = none then .error ()
  else
    match countKey rows fid with
    | 0 => .ok (rows ++ [(fid, f)])
    | 1 => .ok (updRows rows fid (fun _ => f))
    | _ => .error ()

/-- Model: `Data.objects.update_or_create(player=fid, defaults=sd)`.  On update only
the fields bound in `sd` are assigned; the other columns of the existing row
keep their values. -/
def update_or_create_data (rows : List (Int × StatsDict)) (fid : Int)
    (sd : StatsDict) : Except Unit (List (Int × StatsDict)) :=
  match countKey rows fid with
  | 0 => .ok (rows ++ [(fid, sd)])
  | 1 => .ok (updRows rows fid (fun old => applySet old sd))
  | _ => .error ()

/-- One anchor of a league page: its `href` attribute, and the result of the
guarded `TeamName` extraction (`none` = `find_element` raised, which the
inner `try` converts to the "Unknown Team" sentinel; `some t` = the
`get_text_or_none` result). -/
structure LeagueAnchor where
  href : Option Str
  team_name_found : Option (Option Str)
deriving DecidableEq

/-- A rendered league overview page as `get_squad_links` interrogates it:
whether the `TableContainer` wait succeeded, the league title element
(`none` = `find_element` raised; inner option = its text), and the anchors
of the table. -/
structure LeaguePage where
  wait_ok : Bool
  league_title : Option (Option Str)
  anchors : List LeagueAnchor
deriving DecidableEq

/-- URL prefix of team links kept by `get_squad_links`. -/
def teamsPre : Str := pys "https://www.fotmob.com/teams/"

/-- URL prefix of player links kept by `scrape_team_players`. -/
def playersPre : Str := pys "https://www.fotmob.com/players/"

/-- Replace every occurrence of a nonempty pattern, scanning left to right
(Python `str.replace`).  Fuel-indexed so that evaluation is structural; the
fuel, set to the string length, never runs out because each step consumes at
least one character. -/
def replaceGo (p : Char) (ps rep : Str) : Nat → Str → Str
  | _, [] => []
  | 0, s => s
  | fuel + 1, c :: rest =>
    if strStartsB (p :: ps) (c :: rest) then
      rep ++ replaceGo p ps rep fuel ((c :: rest).drop (ps.length + 1))
    else c :: replaceGo p ps rep fuel rest

/-- Python `str.replace(pat, rep)`. -/
def replaceSubStr (pat rep s : Str) : Str :=
  match pat with
  | [] => s
  | p :: ps => replaceGo p ps rep s.length s

/-- The team name used for the Club upsert: the "Unknown Team" sentinel when
the nested `find_element` raised, the extracted text otherwise. -/
def anchorTeamName (a : LeagueAnchor) : Option Str :=
  match a.team_name_found with
  | none => some (pys "Unknown Team")
  | some t => t

/-- The per-anchor loop body of `get_squad_links`: keep anchors whose href
starts with the teams prefix, rewrite "overview" to "squad", resolve the
team name (sentinel on a raised lookup), then `get_or_create` the League and
the Club.  Errors carry the store as mutated so far; the trace records the
store operations (all of them outside any lock). -/
def process_anchors (db : DB) (title : Option Str) :
    List LeagueAnchor → Except DB (DB × List Str) × List Ev
  | [] => (.ok (db, []), [])
  | a :: rest =>
    match a.href with
    | none => process_anchors db title rest
    | some h =>
      if strStartsB teamsPre h then
        match get_or_create_league db title with
        | .error _ => (.error db, [Ev.sop .league_goc])
        | .ok (lid, db1) =>
          match get_or_create_club db1 (anchorTeamName a) lid with
          | .error _ => (.error db1, [Ev.sop .league_goc, Ev.sop .club_goc])
          | .ok (_, db2) =>
            (match (process_anchors db2 title rest).1 with
             | .ok (db3, ls) =>
               .ok (db3, replaceSubStr (pys "overview") (pys "squad") h :: ls)
             | .error db3 => .error db3,
             Ev.sop .league_goc :: Ev.sop .club_goc ::
               (process_anchors db2 title rest).2)
      else process_anchors db title rest

/-- Processing of one league URL inside `get_squad_links`: the bounded wait
for the table, the title lookup, then the anchor loop. -/
def process_league_url (db : DB) (p : LeaguePage) :
    Except DB (DB × List Str) × List Ev :=
  if p.wait_ok then
    match p.league_title with
    | none => (.error db, [])
    | some t => process_anchors db t p.anchors
  else (.error db, [])

/-- The URL loop of `get_squad_links`.  The whole loop sits inside one `try`:
the first exception aborts the remaining URLs and the handler returns an
empty list, discarding the links collected in `acc`; store mutations already
performed persist. -/
def squad_loop (db : DB) (acc : List Str) :
    List LeaguePage → (DB × List Str) × List Ev
  | [] => ((db, acc), [])
  | p :: ps =>
    match process_league_url db p with
    | (.error db1, tr) => ((db1, []), tr)
    | (.ok (db1, ls), tr) =>
      let r := squad_loop db1 (acc ++ ls) ps
      (r.1, tr ++ r.2)

/-- Model: `get_squad_links` from `scrape_data.py` over a list of already-rendered
league pages. -/
def get_squad_links (db : DB) (pages : List LeaguePage) :
    (DB × List Str) × List Ev :=
  squad_loop db [] pages

/-- A rendered squad page as `scrape_team_players` interrogates it: whether
the wait for a squad player link succeeded (false also covers any other
exception of the body, which the handler turns into an empty result), and
the href attributes of the found anchors. -/
structure TeamPage where
  ok : Bool
  anchors : List (Option Str)
deriving DecidableEq

/-- Model: `scrape_team_players` from `scrape_data.py`: the hrefs that exist and
start with the players prefix, or an empty list when the page failed. -/
def scrape_team_players (p : TeamPage) : List Str :=
  if p.ok then (p.anchors.filterMap id).filter (fun h => strStartsB playersPre h)
  else []

/-- The fan-in of `get_player_links_multithreaded`: extend the accumulator
with each completed task's result, in completion order. -/
def get_player_links_multithreaded (results : List (List Str)) : List Str :=
  results.foldl (fun a l => a ++ l) []

/-- A rendered player profile page as `scrape_player_with_driver` interrogates
it.  `club_raw` is `none` when the `TeamCSS` lookup raises or its text is
`None` (either way the task body raises before any store write).
`bio_fields` entries are `none` when one of the two inner `find_element`
calls raises (the per-field `try` then skips the field); otherwise they hold
the `get_text_or_none` results for title and value.  `stat_items` uses the
same convention for the secondary statistics block. -/
structure PlayerPage where
  wait_name_ok : Bool
  name : Option Str
  club_raw : Option Str
  positions : List (Option Str)
  bio_fields : List (Option (Option Str × Option Str))
  stats_wait_ok : Bool
  stat_items : List (Option (Option Str × Option Str))
deriving DecidableEq

/-- One iteration of the bio-stat loop: the title drives which `player_data`
entry is assigned; any exception inside the iteration is caught and skips
the assignment (leaving the previous value, not writing null). -/
def bio_step (pd : BioData) (fld : Option (Option Str × Option Str)) : BioData :=
  match fld with
  | none => pd
  | some (title, value) =>
    if title = some (pys "Height") then
      match value with
      | none => pd
      | some v =>
        match pySplitWS v with
        | [] => pd
        | t :: _ =>
          let hv : Option Int :=
            if allDigits t ∧ t ≠ [] then some (natOfDigits t : Int) else none
          { pd with height := hv }
    else if title = some (pys "Shirt") then
      { pd with shirt_number := value }
    else if title = some (pys "Preferred foot") then
      { pd with foot := value }
    else if title = some (pys "Country") then
      { pd with country := value }
    else if title = some (pys "Market value") then
      match value with
      | none => pd
      | some v =>
        match parse_market_value v with
        | .ok mv => { pd with market_value := mv }
        | .error _ => pd
    else
      match value with
      | none => pd
      | some v =>
        if strHasSub (pys "years") v then
          match pySplitWS v with
          | [] => pd
          | t :: _ =>
            let av : Option Int :=
              if allDigits t ∧ t ≠ [] then some (natOfDigits t : Int) else none
            { pd with age := av }
        else pd

/-- The whole bio-stat loop of `scrape_player_with_driver`. -/
def parse_bio (fields : List (Option (Option Str × Option Str))) : BioData :=
  fields.foldl bio_step
    { height := none, shirt_number := none, age := none,
      foot := none, country := none, market_value := none }

/-- Strip the "(on loan)" qualifier: `club_name[:-len(' (on loan)')].strip()`
when the text ends with "(on loan)". -/
def stripLoan (s : Str) : Str :=
  if strEndsStr s (pys "(on loan)") then pyStrip (dropRightN s 10) else s

/-- Model: `', '.join(...)` over the position texts; a `None` element raises. -/
def seqOptions : List (Option Str) → Except Unit (List Str)
  | [] => .ok []
  | none :: _ => .error ()
  | some s :: rest => (seqOptions rest).map (fun l => s :: l)

/-- Model: `player_link.split('/')[-2]`; fewer than two segments raise `IndexError`. -/
def fidSeg (link : Str) : Except Unit Str :=
  match (splitOnChar '/' link).reverse with
  | _ :: x :: _ => .ok x
  | _ => .error ()

/-- Model: `int(player_data['shirt_number']) if ... and ....isdigit() else None`. -/
def shirtToInt : Option Str → Option Int
  | none => none
  | some s => if s ≠ [] ∧ allDigits s then some (natOfDigits s : Int) else none

/-- The pure extraction part of `scrape_player_with_driver`, before any store
access: name, club name (loan qualifier stripped), joined positions, bio
fields, and the external id parsed from the URL (Django coerces the string
segment to the integer column; a non-numeric segment raises). -/
structure Extracted where
  name : Option Str
  club_name : Str
  positions_text : Str
  bio : BioData
  fid : Int
deriving DecidableEq

def extract_player (link : Str) (pg : PlayerPage) : Except Unit Extracted :=
  match pg.club_raw with
  | none => .error ()
  | some cr =>
    match seqOptions pg.positions with
    | .error _ => .error ()
    | .ok ps =>
      match fidSeg link with
      | .error _ => .error ()
      | .ok fs =>
        match pyInt? fs with
        | none => .error ()
        | some fid => .ok
            { name := pg.name, club_name := stripLoan cr,
              positions_text := List.intercalate (pys ", ") ps,
              bio := parse_bio pg.bio_fields, fid := fid }

/-- The `Player` defaults dict built in `scrape_player_with_driver`. -/
def mkFields (e : Extracted) (cid : Nat) : PlayerFields :=
  { name := e.name, club := some cid, position := e.positions_text,
    country := e.bio.country, shirt_number := shirtToInt e.bio.shirt_number,
    age := e.bio.age, height := e.bio.height,
    market_value := e.bio.market_value }

/-- The first `with db_lock:` block: `Club.objects.get` (a miss is caught but
leaves the local `club` unbound, so building the defaults dict raises
`UnboundLocalError`; several matches raise `MultipleObjectsReturned`),
then the `Player` upsert. -/
def player_db_block (db : DB) (e : Extracted) : Except Unit DB × List Ev :=
  match clubMatches db e.club_name with
  | [c] =>
    (match update_or_create_player db.players e.fid (mkFields e c.1) with
     | .ok ps => (.ok { db with players := ps },
         lockEv [StoreOp.club_get, StoreOp.player_uoc])
     | .error _ => (.error (),
         lockEv [StoreOp.club_get, StoreOp.player_uoc]))
  | _ => (.error (), lockEv [StoreOp.club_get])

/-- The inner fold of the stats loop: try every `data_match_dict` entry
against the item title; on a match, parse the value (a `None` value raises
inside `parse_stat_value`). -/
def entries_fold (t v : Option Str) :
    List (DataField × Str) → StatsDict → Except Unit StatsDict
  | [], d => .ok d
  | e :: es, d =>
    if t = some e.2 then
      match v with
      | some s => entries_fold t v es (dictInsert d e.1 (parse_stat_value s))
      | none => .error ()
    else entries_fold t v es d

/-- The stats-item loop building `stats_data`; a raised `find_element`
(`none` item) or a `None` value on a matching label aborts the whole stats
section. -/
def build_stats : List (Option (Option Str × Option Str)) → StatsDict →
    Except Unit StatsDict
  | [], d => .ok d
  | none :: _, _ => .error ()
  | some (t, v) :: rest, d =>
    match entries_fold t v data_match_dict d with
    | .error _ => .error ()
    | .ok d1 => build_stats rest d1

/-- The stats section up to the dict: the bounded 5-unit wait, then the item
loop. -/
def stats_section_dict (pg : PlayerPage) : Except Unit StatsDict :=
  if pg.stats_wait_ok then build_stats pg.stat_items [] else .error ()

/-- The second `with db_lock:` block: the `Data` upsert. -/
def data_db_block (db : DB) (fid : Int) (sd : StatsDict) :
    Except Unit DB × List Ev :=
  match update_or_create_data db.dataRows fid sd with
  | .ok ds => (.ok { db with dataRows := ds }, lockEv [StoreOp.data_uoc])
  | .error _ => (.error (), lockEv [StoreOp.data_uoc])

/-- Model: `scrape_player_with_driver` from `scrape_data.py`: returns the store, the
boolean the task reports, and the lock/store trace.  The outer `try` turns
any exception up to the player upsert into `False`; the stats section has
its own bare `except` that logs and returns `True`, so a failure there keeps
the player upsert and still counts as success. -/
def scrape_player_with_driver (db : DB) (link : Str) (pg : PlayerPage) :
    (DB × Bool) × List Ev :=
  if pg.wait_name_ok then
    match extract_player link pg with
    | .error _ => ((db, false), [])
    | .ok e =>
      match player_db_block db e with
      | (.error _, tr) => ((db, false), tr)
      | (.ok db1, tr1) =>
        match stats_section_dict pg with
        | .error _ => ((db1, true), tr1)
        | .ok sd =>
          match data_db_block db1 e.fid sd with
          | (.error _, tr2) => ((db1, true), tr1 ++ tr2)
          | (.ok db2, tr2) => ((db2, true), tr1 ++ tr2)
  else ((db, false), [])

/-- Model: `get_player_data_multithreaded`: run every task (the store writes are
serialized by `db_lock`; the list order is the serialization order) and
count successes and failures. -/
def get_player_data_multithreaded (db : DB) :
    List (Str × PlayerPage) → DB × Nat × Nat
  | [] => (db, 0, 0)
  | t :: ts =>
    let r := scrape_player_with_driver db t.1 t.2
    let rest := get_player_data_multithreaded r.1.1 ts
    if r.1.2 then (rest.1, rest.2.1 + 1, rest.2.2)
    else (rest.1, rest.2.1, rest.2.2 + 1)

/-- The stored `Data` value of a field for a player key: null when the player
has no row, the row's field value otherwise. -/
def storedVal (rows : List (Int × StatsDict)) (k : Int) (f : DataField) :
    Option PyNum :=
  fieldVal ((dictGet rows k).getD []) f

/-- A store holding the league but not the club "Nantes". -/
def dbC3 : DB :=
  { leagues := [(0, pys "Ligue 1")], clubs := [], players := [],
    dataRows := [], nextId := 1 }

/-- A well-formed player page whose club display name is "Nantes". -/
def pgC3 : PlayerPage :=
  { wait_name_ok := true, name := some (pys "Joe"),
    club_raw := some (pys "Nantes"), positions := [some (pys "ST")],
    bio_fields := [some (some (pys "Country"), some (pys "France"))],
    stats_wait_ok := true, stat_items := [] }

def linkC3 : Str := pys "https://www.fotmob.com/players/123/joe"

/-- The extraction result of `pgC3`. -/
def eC3 : Extracted :=
  { name := some (pys "Joe"), club_name := pys "Nantes",
    positions_text := pys "ST",
    bio := { height := none, shirt_number := none, age := none, foot := none,
             country := some (pys "France"), market_value := none },
    fid := 123 }

/-- The player fields of the pre-existing row in the C5 scenario. -/
def pfC5 : PlayerFields :=
  { name := some (pys "Leo"), club := some 1, position := [],
    country := some (pys "FR"), shirt_number := none, age := none,
    height := none, market_value := none }

/-- A store in which player 7 already has a Data row with `goals = 5` from a
previous run. -/
def dbC5 : DB :=
  { leagues := [], clubs := [(1, pys "PSG", 0)], players := [(7, pfC5)],
    dataRows := [(7, [(DataField.goals, some (PyNum.int 5))])], nextId := 2 }

/-- This run's page: the statistics block carries only an "Assists" item; no
"Goals" label is present. -/
def pgC5 : PlayerPage :=
  { wait_name_ok := true, name := some (pys "Leo"),
    club_raw := some (pys "PSG"), positions := [],
    bio_fields := [some (some (pys "Country"), some (pys "FR"))],
    stats_wait_ok := true,
    stat_items := [some (some (pys "Assists"), some (pys "3"))] }

def linkC5 : Str := pys "https://www.fotmob.com/players/7/leo"

/-- The empty store. -/
def dbEmpty : DB :=
  { leagues := [], clubs := [], players := [], dataRows := [], nextId := 0 }

/-- A league page that renders fine and carries one team anchor. -/
def lpGood : LeaguePage :=
  { wait_ok := true, league_title := some (some (pys "Ligue 1")),
    anchors := [{ href := some (pys "https://www.fotmob.com/teams/1/overview/nantes"),
                  team_name_found := some (some (pys "Nantes")) }] }

/-- A league page whose bounded wait for the table times out. -/
def lpBad : LeaguePage :=
  { wait_ok := false, league_title := none, anchors := [] }

/-- A second good league page with a different team anchor. -/
def lpGood2 : LeaguePage :=
  { wait_ok := true, league_title := some (some (pys "Ligue 1")),
    anchors := [{ href := some (pys "https://www.fotmob.com/teams/2/overview/lyon"),
                  team_name_found := some (some (pys "Lyon")) }] }

/-- The store after processing `lpGood` from the empty store. -/
def dbAfterGood : DB :=
  { leagues := [(0, pys "Ligue 1")], clubs := [(1, pys "Nantes", 0)],
    players := [], dataRows := [], nextId := 2 }

/-- A squad page with one matching player link, one foreign link and one
detached anchor. -/
def tpA : TeamPage :=
  { ok := true,
    anchors := [some (pys "https://www.fotmob.com/players/1/a"),
                some (pys "https://elsewhere.example/x"), none] }

/-- A squad page whose wait failed: its task returns an empty list. -/
def tpB : TeamPage :=
  { ok := false, anchors := [some (pys "https://www.fotmob.com/players/2/b")] }

/-- The store uniqueness invariant (`fotmob_id` unique, one Data row per
player) that every batch maintains. -/
def StoreInv (db : DB) : Prop :=
  (∀ k, countKey db.players k ≤ 1) ∧ (∀ k, countKey db.dataRows k ≤ 1)

/-- A player task whose page renders, extracts and resolves its club
uniquely, with the NOT NULL fields present; its statistics block may or may
not be present. -/
def GoodTask (db : DB) (t : Str × PlayerPage) : Prop :=
  t.2.wait_name_ok = true ∧
  ∃ e c0, extract_player t.1 t.2 = .ok e ∧ e.name ≠ none ∧
    e.bio.country ≠ none ∧ clubMatches db e.club_name = [c0]

/-- A player task that raises mid-extraction: its bounded wait for the name
element fails, or the extraction itself raises. -/
def BadTask (t : Str × PlayerPage) : Prop :=
  t.2.wait_name_ok = false ∨ extract_player t.1 t.2 = .error ()

/-- Decidable check for `GoodTask`, used to discharge it on concrete tasks. -/
def goodTaskCheck (db : DB) (t : Str × PlayerPage) : Bool :=
  t.2.wait_name_ok &&
    (match extract_player t.1 t.2 with
     | .ok e => e.name.isSome && e.bio.country.isSome &&
         (match clubMatches db e.club_name with
          | [_] => true
          | _ => false)
     | .error _ => false)

/-- A well-formed concrete player task for the C6 scenario; `stats` controls
whether its statistics block is present. -/
def wTask (idStr nm : String) (stats : Bool) : Str × PlayerPage :=
  (pys ("https://www.fotmob.com/players/" ++ idStr ++ "/x"),
   { wait_name_ok := true, name := some (pys nm), club_raw := some (pys "PSG"),
     positions := [], bio_fields := [some (some (pys "Country"), some (pys "France"))],
     stats_wait_ok := stats,
     stat_items := [some (some (pys "Goals"), some (pys "2"))] })

/-- The one task that raises mid-extraction (its name wait times out). -/
def wBad : Str × PlayerPage :=
  (pys "https://www.fotmob.com/players/999/bad",
   { wait_name_ok := false, name := none, club_raw := none, positions := [],
     bio_fields := [], stats_wait_ok := false, stat_items := [] })

def dbW6 : DB :=
  { leagues := [], clubs := [(1, pys "PSG", 0)], players := [], dataRows := [],
    nextId := 2 }

def preW6 : List (Str × PlayerPage) :=
  [wTask "101" "P1" true, wTask "102" "P2" true, wTask "103" "P3" false]

def postW6 : List (Str × PlayerPage) :=
  [wTask "104" "P4" true, wTask "105" "P5" true, wTask "106" "P6" true,
   wTask "107" "P7" true, wTask "108" "P8" true, wTask "109" "P9" true]

def dbW1 : DB :=
  { leagues := [], clubs := [(1, pys "PSG", 0)], players := [], dataRows := [],
    nextId := 2 }

def pgW1 : PlayerPage :=
  { wait_name_ok := true, name := some (pys "Kylian"),
    club_raw := some (pys "PSG"), positions := [some (pys "ST")],
    bio_fields := [some (some (pys "Country"), some (pys "France"))],
    stats_wait_ok := true,
    stat_items := [some (some (pys "Goals"), some (pys "5"))] }

def linkW1 : Str := pys "https://www.fotmob.com/players/9/kylian"

def eW1 : Extracted :=
  { name := some (pys "Kylian"), club_name := pys "PSG",
    positions_text := pys "ST",
    bio := { height := none, shirt_number := none, age := none, foot := none,
             country := some (pys "France"), market_value := none },
    fid := 9 }

def sdW1 : StatsDict := [(DataField.goals, some (PyNum.int 5))]

theorem dictGet_cons {K V : Type} [DecidableEq K] (e : K × V) (es : List (K × V))
    (k : K) : dictGet (e :: es) k = if e.1 = k then some e.2 else dictGet es k := rfl

theorem dictInsert_cons {K V : Type} [DecidableEq K] (e : K × V)
    (es : List (K × V)) (k : K) (v : V) :
    dictInsert (e :: es) k v =
      if e.1 = k then (k, v) :: es else e :: dictInsert es k v := rfl

theorem updRows_cons {K V : Type} [DecidableEq K] (e : K × V)
    (es : List (K × V)) (k : K) (g : V → V) :
    updRows (e :: es) k g =
      (if e.1 = k then (k, g e.2) else e) :: updRows es k g := rfl

theorem countKey_cons {K V : Type} [DecidableEq K] (e : K × V)
    (es : List (K × V)) (k : K) :
    countKey (e :: es) k = (if e.1 = k then 1 else 0) + countKey es k := rfl

theorem dictGet_insert_self {K V : Type} [DecidableEq K] (d : List (K × V))
    (k : K) (v : V) : dictGet (dictInsert d k v) k = some v := by
  induction d with
  | nil => simp [dictInsert, dictGet]
  | cons e es ih =>
    rw [dictInsert_cons]
    by_cases h : e.1 = k
    · rw [if_pos h, dictGet_cons, if_pos rfl]
    · rw [if_neg h, dictGet_cons, if_neg h]
      exact ih

theorem dictGet_insert_ne {K V : Type} [DecidableEq K] (d : List (K × V))
    (k k' : K) (v : V) (h : k' ≠ k) :
    dictGet (dictInsert d k v) k' = dictGet d k' := by
  induction d with
  | nil =>
    show (if k = k' then some v else none) = none
    rw [if_neg (fun hc : k = k' => h hc.symm)]
  | cons e es ih =>
    rw [dictInsert_cons]
    by_cases he : e.1 = k
    · rw [if_pos he, dictGet_cons, dictGet_cons,
        if_neg (show ¬((k, v).1 = k') from fun hc => h hc.symm),
        if_neg (show ¬(e.1 = k') from fun hc => h (hc ▸ he))]
    · rw [if_neg he, dictGet_cons, dictGet_cons]
      by_cases hk : e.1 = k'
      · rw [if_pos hk, if_pos hk]
      · rw [if_neg hk, if_neg hk]
        exact ih

theorem dictGet_eq_none_of_not_mem_keys {K V : Type} [DecidableEq K]
    (d : List (K × V)) (k : K) (h : k ∉ d.map Prod.fst) :
    dictGet d k = none := by
  induction d with
  | nil => rfl
  | cons e es ih =>
    simp only [List.map_cons, List.mem_cons] at h
    push_neg at h
    rw [dictGet_cons, if_neg (fun hc : e.1 = k => h.1 hc.symm)]
    exact ih h.2

theorem countKey_eq_zero_iff {K V : Type} [DecidableEq K] (rows : List (K × V))
    (k : K) : countKey rows k = 0 ↔ dictGet rows k = none := by
  induction rows with
  | nil => simp [countKey, dictGet]
  | cons e es ih =>
    rw [countKey_cons, dictGet_cons]
    by_cases h : e.1 = k
    · rw [if_pos h, if_pos h]
      simp
    · rw [if_neg h, if_neg h]
      simpa using ih

theorem countKey_append {K V : Type} [DecidableEq K] (a b : List (K × V))
    (k : K) : countKey (a ++ b) k = countKey a k + countKey b k := by
  induction a with
  | nil => simp [countKey]
  | cons e es ih =>
    rw [List.cons_append, countKey_cons, countKey_cons, ih]
    omega

theorem dictGet_append_of_none {K V : Type} [DecidableEq K]
    (a b : List (K × V)) (k : K) (h : dictGet a k = none) :
    dictGet (a ++ b) k = dictGet b k := by
  induction a with
  | nil => rfl
  | cons e es ih =>
    rw [dictGet_cons] at h
    by_cases he : e.1 = k
    · rw [if_pos he] at h
      exact absurd h (by simp)
    · rw [if_neg he] at h
      rw [List.cons_append, dictGet_cons, if_neg he]
      exact ih h

theorem dictGet_append_of_some {K V : Type} [DecidableEq K]
    (a b : List (K × V)) (k : K) (h : dictGet a k ≠ none) :
    dictGet (a ++ b) k = dictGet a k := by
  induction a with
  | nil => exact absurd rfl h
  | cons e es ih =>
    rw [dictGet_cons] at h
    rw [List.cons_append, dictGet_cons, dictGet_cons]
    by_cases he : e.1 = k
    · rw [if_pos he, if_pos he]
    · rw [if_neg he] at h
      rw [if_neg he, if_neg he]
      exact ih h

theorem dictGet_updRows_self {K V : Type} [DecidableEq K] (rows : List (K × V))
    (k : K) (g : V → V) :
    dictGet (updRows rows k g) k = (dictGet rows k).map g := by
  induction rows with
  | nil => rfl
  | cons e es ih =>
    rw [updRows_cons, dictGet_cons]
    by_cases he : e.1 = k
    · rw [if_pos he, dictGet_cons, if_pos he]
      simp
    · rw [if_neg he, dictGet_cons, if_neg he, if_neg he]
      exact ih

theorem dictGet_updRows_ne {K V : Type} [DecidableEq K] (rows : List (K × V))
    (k k' : K) (g : V → V) (h : k' ≠ k) :
    dictGet (updRows rows k g) k' = dictGet rows k' := by
  induction rows with
  | nil => rfl
  | cons e es ih =>
    rw [updRows_cons, dictGet_cons, dictGet_cons]
    by_cases he : e.1 = k
    · rw [if_pos he,
        if_neg (show ¬((k, g e.2).1 = k') from fun hc => h hc.symm),
        if_neg (show ¬(e.1 = k') from fun hc => h (hc ▸ he))]
      exact ih
    · rw [if_neg he]
      by_cases hk : e.1 = k'
      · rw [if_pos hk, if_pos hk]
      · rw [if_neg hk, if_neg hk]
        exact ih

theorem countKey_updRows {K V : Type} [DecidableEq K] (rows : List (K × V))
    (k k' : K) (g : V → V) :
    countKey (updRows rows k g) k' = countKey rows k' := by
  induction rows with
  | nil => rfl
  | cons e es ih =>
    by_cases he : e.1 = k
    · rw [updRows_cons, if_pos he, countKey_cons, countKey_cons]
      by_cases hk : k = k'
      · rw [if_pos (show (k, g e.2).1 = k' from hk), if_pos (he.trans hk), ih]
      · rw [if_neg (show ¬((k, g e.2).1 = k') from hk),
          if_neg (show ¬(e.1 = k') from fun hc => hk (he ▸ hc)), ih]
    · rw [updRows_cons, if_neg he, countKey_cons, countKey_cons]
      by_cases hk : e.1 = k'
      · rw [if_pos hk, ih]
      · rw [if_neg hk, ih]

theorem applySet_cons (row : StatsDict) (e : DataField × Option PyNum)
    (es : StatsDict) :
    applySet row (e :: es) = applySet (dictInsert row e.1 e.2) es := rfl

/-- Effect of Django's `setattr` update loop on a single field, for an update
dict with distinct keys: updated fields take the new value, other fields
keep the row's value. -/
theorem fieldVal_applySet (upd : StatsDict) : ∀ (row : StatsDict),
    (upd.map Prod.fst).Nodup → ∀ f,
    fieldVal (applySet row upd) f = (dictGet upd f).getD (fieldVal row f) := by
  induction upd with
  | nil =>
    intro row _ f
    rfl
  | cons e es ih =>
    intro row hnd f
    rw [applySet_cons]
    simp only [List.map_cons, List.nodup_cons] at hnd
    rw [ih (dictInsert row e.1 e.2) hnd.2 f, dictGet_cons]
    by_cases hf : e.1 = f
    · have hnone : dictGet es f = none :=
        dictGet_eq_none_of_not_mem_keys es f (by rw [← hf]; exact hnd.1)
      rw [if_pos hf, hnone]
      simp only [Option.getD_none, Option.getD_some]
      show fieldVal (dictInsert row e.1 e.2) f = e.2
      rw [← hf]
      unfold fieldVal
      rw [dictGet_insert_self]
      rfl
    · rw [if_neg hf]
      have hsame : fieldVal (dictInsert row e.1 e.2) f = fieldVal row f := by
        unfold fieldVal
        rw [dictGet_insert_ne row e.1 f e.2 (fun hcx => hf hcx.symm)]
      rw [hsame]

/-- Specification of the `Player` upsert under the uniqueness invariant:
it succeeds, afterwards the key has exactly one row holding exactly the new
fields, and every other key is untouched. -/
theorem uoc_player_ok (rows : List (Int × PlayerFields)) (fid : Int)
    (f : PlayerFields) (hn : f.name ≠ none) (hc : f.country ≠ none)
    (hcount : countKey rows fid ≤ 1) :
    ∃ rows2, update_or_create_player rows fid f = .ok rows2 ∧
      dictGet rows2 fid = some f ∧ countKey rows2 fid = 1 ∧
      (∀ k, k ≠ fid →
        dictGet rows2 k = dictGet rows k ∧ countKey rows2 k = countKey rows k) := by
  unfold update_or_create_player
  rw [if_neg (not_or.mpr ⟨hn, hc⟩)]
  cases hcnt : countKey rows fid with
  | zero =>
    refine ⟨rows ++ [(fid, f)], rfl, ?_, ?_, ?_⟩
    · rw [dictGet_append_of_none rows _ fid ((countKey_eq_zero_iff rows fid).mp hcnt),
        dictGet_cons, if_pos rfl]
    · rw [countKey_append, hcnt, countKey_cons]
      simp [countKey]
    · intro k hk
      constructor
      · by_cases hg : dictGet rows k = none
        · rw [dictGet_append_of_none rows _ k hg, hg, dictGet_cons,
            if_neg (fun hcx : fid = k => hk hcx.symm)]
          rfl
        · exact dictGet_append_of_some rows _ k hg
      · rw [countKey_append, countKey_cons,
          if_neg (fun hcx : fid = k => hk hcx.symm)]
        simp [countKey]
  | succ n =>
    cases n with
    | zero =>
      refine ⟨updRows rows fid (fun _ => f), rfl, ?_, ?_, ?_⟩
      · rw [dictGet_updRows_self]
        have hne : dictGet rows fid ≠ none := by
          intro hq
          rw [(countKey_eq_zero_iff rows fid).mpr hq] at hcnt
          exact Nat.zero_ne_add_one 0 hcnt
        cases hg : dictGet rows fid with
        | none => exact absurd hg hne
        | some old => rfl
      · rw [countKey_updRows, hcnt]
      · intro k hk
        exact ⟨dictGet_updRows_ne rows fid k _ hk, countKey_updRows rows fid k _⟩
    | succ m =>
      rw [hcnt] at hcount
      omega

/-- Specification of the `Data` upsert under the uniqueness invariant:
it succeeds, afterwards the key has exactly one row; fields bound in the
update dict take the new values and the remaining fields keep the previous
stored value (null when the row is new); other keys are untouched. -/
theorem uoc_data_spec (rows : List (Int × StatsDict)) (fid : Int)
    (sd : StatsDict) (hnd : (sd.map Prod.fst).Nodup)
    (hcount : countKey rows fid ≤ 1) :
    ∃ rows2, update_or_create_data rows fid sd = .ok rows2 ∧
      countKey rows2 fid = 1 ∧
      (∀ f, storedVal rows2 fid f = (dictGet sd f).getD (storedVal rows fid f)) ∧
      (∀ k, k ≠ fid →
        dictGet rows2 k = dictGet rows k ∧ countKey rows2 k = countKey rows k) := by
  unfold update_or_create_data
  cases hcnt : countKey rows fid with
  | zero =>
    have hnone : dictGet rows fid = none := (countKey_eq_zero_iff rows fid).mp hcnt
    refine ⟨rows ++ [(fid, sd)], rfl, ?_, ?_, ?_⟩
    · rw [countKey_append, hcnt, countKey_cons]
      simp [countKey]
    · intro f
      unfold storedVal
      rw [dictGet_append_of_none rows _ fid hnone, hnone, dictGet_cons, if_pos rfl]
      rfl
    · intro k hk
      constructor
      · by_cases hg : dictGet rows k = none
        · rw [dictGet_append_of_none rows _ k hg, hg, dictGet_cons,
            if_neg (fun hcx : fid = k => hk hcx.symm)]
          rfl
        · exact dictGet_append_of_some rows _ k hg
      · rw [countKey_append, countKey_cons,
          if_neg (fun hcx : fid = k => hk hcx.symm)]
        simp [countKey]
  | succ n =>
    cases n with
    | zero =>
      have hne : dictGet rows fid ≠ none := by
        intro hq
        rw [(countKey_eq_zero_iff rows fid).mpr hq] at hcnt
        exact Nat.zero_ne_add_one 0 hcnt
      cases hg : dictGet rows fid with
      | none => exact absurd hg hne
      | some old =>
        refine ⟨updRows rows fid (fun o => applySet o sd), rfl, ?_, ?_, ?_⟩
        · rw [countKey_updRows, hcnt]
        · intro f
          unfold storedVal
          rw [dictGet_updRows_self, hg]
          simp only [Option.map_some, Option.getD_some]
          exact fieldVal_applySet sd old hnd f
        · intro k hk
          exact ⟨dictGet_updRows_ne rows fid k _ hk, countKey_updRows rows fid k _⟩
    | succ m =>
      rw [hcnt] at hcount
      omega

theorem strEndsChar_concat (s : Str) (c : Char) :
    strEndsChar (s ++ [c]) c = true := by
  simp [strEndsChar, List.getLast?_concat]

theorem dropRightN_concat (s : Str) (c : Char) : dropRightN (s ++ [c]) 1 = s := by
  unfold dropRightN
  rw [List.length_append]
  simp only [List.length_cons, List.length_nil, Nat.zero_add, Nat.add_sub_cancel]
  exact List.take_left s [c]

theorem mapReplace_comma_idem (s : Str) :
    mapReplace ',' '.' (mapReplace ',' '.' s) = mapReplace ',' '.' s := by
  unfold mapReplace
  rw [List.map_map]
  congr 1
  funext c
  simp only [Function.comp_apply]
  by_cases h : c = ','
  · subst h
    decide
  · simp [h]

theorem strEndsChar_mapReplace_pct (s : Str) :
    strEndsChar (mapReplace ',' '.' s) '%' = strEndsChar s '%' := by
  unfold strEndsChar mapReplace
  rw [List.getLast?_map]
  cases h : s.getLast? with
  | none => rfl
  | some c =>
    simp only [Option.map_some]
    by_cases hc : c = ','
    · subst hc
      decide
    · simp [hc]

theorem dropRightN_mapReplace (s : Str) (n : Nat) :
    dropRightN (mapReplace ',' '.' s) n = mapReplace ',' '.' (dropRightN s n) := by
  unfold dropRightN mapReplace
  rw [List.length_map, ← List.map_take]

/-- Model: `decTruncMul` really is the integer part of `value * m` for a nonnegative
decimal: the semantic link between the exact-decimal computation and the
real-number reading of "the leading number times m". -/
theorem decTruncMul_floor (d : Int × Nat) (m : Nat) (h : 0 ≤ d.1) :
    ((decTruncMul d m : ℤ) : ℚ) ≤ decVal d * m ∧
    decVal d * m < ((decTruncMul d m : ℤ) : ℚ) + 1 := by
  obtain ⟨n, hn⟩ := Int.eq_ofNat_of_zero_le h
  have h10 : (0 : ℚ) < (10 : ℚ) ^ d.2 := by positivity
  have hval : decVal d * m = ((n * m : ℕ) : ℚ) / (10 : ℚ) ^ d.2 := by
    unfold decVal
    rw [hn]
    push_cast
    ring
  have htr : decTruncMul d m = ((n * m / 10 ^ d.2 : ℕ) : ℤ) := by
    unfold decTruncMul
    rw [hn]
    rfl
  rw [hval, htr]
  have h9 : ((10 ^ d.2 : ℕ) : ℚ) = (10 : ℚ) ^ d.2 := by push_cast; ring
  constructor
  · have hle : ((n * m / 10 ^ d.2 : ℕ) : ℚ) ≤ ((n * m : ℕ) : ℚ) / ((10 ^ d.2 : ℕ) : ℚ) :=
      Nat.cast_div_le
    rw [Int.cast_natCast, ← h9]
    exact hle
  · have hb : (0 : ℕ) < 10 ^ d.2 := Nat.pos_pow_of_pos d.2 (by omega)
    have hlt : n * m < (n * m / 10 ^ d.2 + 1) * 10 ^ d.2 := by
      have h2 := Nat.div_add_mod (n * m) (10 ^ d.2)
      have h3 := Nat.mod_lt (n * m) hb
      nlinarith [Nat.div_mul_le_self (n * m) (10 ^ d.2)]
    have hq : ((n * m : ℕ) : ℚ) < ((n * m / 10 ^ d.2 + 1 : ℕ) : ℚ) * ((10 ^ d.2 : ℕ) : ℚ) := by
      rw [← Nat.cast_mul]
      exact_mod_cast hlt
    rw [div_lt_iff₀ h10, Int.cast_natCast]
    push_cast at hq ⊢
    linarith

/-- C2, counterexample: the claim says thousands separators are stripped and
every unparsable input yields null, but on "€1,5M" the code hits
`float("1,5")` outside any `try` and raises, where the claim's own parser
(separators stripped, null on failure) would produce 15000000. -/
theorem c2_market_value_counterexample :
    parse_market_value (pys "€1,5M") = Except.error () ∧
    parse_market_value_claim (pys "€1,5M") = some 15000000 :=
  ⟨by decide, by decide⟩

/-- C2, amended: `parse_market_value` strips the currency symbol and
surrounding whitespace and uppercases, but does NOT strip thousands
separators; suffix M multiplies the parsed decimal prefix by 1,000,000 and
suffix K by 1,000, truncating toward zero, and raises (instead of returning
null) when that prefix is not a valid number; without a suffix it parses a
plain integer, with null on failure.  "€45.5M" → 45500000; "€750K" → 750000;
"€10" → 10; "N/A" → null.  The last clause ties the exact-decimal
computation to the real-valued product. -/
theorem c2_market_value_amended :
    parse_market_value (pys "€45.5M") = Except.ok (some 45500000) ∧
    parse_market_value (pys "€750K") = Except.ok (some 750000) ∧
    parse_market_value (pys "€10") = Except.ok (some 10) ∧
    parse_market_value (pys "N/A") = Except.ok none ∧
    (∀ v d, strEndsChar (pmvNorm v) 'M' = true →
      pyFloat? (dropRightN (pmvNorm v) 1) = some d →
      parse_market_value v = Except.ok (some (decTruncMul d 1000000))) ∧
    (∀ v, strEndsChar (pmvNorm v) 'M' = true →
      pyFloat? (dropRightN (pmvNorm v) 1) = none →
      parse_market_value v = Except.error ()) ∧
    (∀ v d, strEndsChar (pmvNorm v) 'M' = false →
      strEndsChar (pmvNorm v) 'K' = true →
      pyFloat? (dropRightN (pmvNorm v) 1) = some d →
      parse_market_value v = Except.ok (some (decTruncMul d 1000))) ∧
    (∀ v, strEndsChar (pmvNorm v) 'M' = false →
      strEndsChar (pmvNorm v) 'K' = false →
      parse_market_value v = Except.ok (pyInt? (pmvNorm v))) ∧
    (∀ d m, 0 ≤ d.1 → ((decTruncMul d m : ℤ) : ℚ) ≤ decVal d * m ∧
      decVal d * m < ((decTruncMul d m : ℤ) : ℚ) + 1) := by
  refine ⟨by decide, by decide, by decide, by decide, ?_, ?_, ?_, ?_,
    decTruncMul_floor⟩
  · intro v d hM hf
    unfold parse_market_value pmvSuffix
    rw [if_pos hM, hf]
  · intro v hM hf
    unfold parse_market_value pmvSuffix
    rw [if_pos hM, hf]
  · intro v d hM hK hf
    unfold parse_market_value pmvSuffix
    rw [if_neg (by simp [hM]), if_pos hK, hf]
  · intro v hM hK
    unfold parse_market_value pmvSuffix
    rw [if_neg (by simp [hM]), if_neg (by simp [hK])]

theorem c2_market_value_witness :
    parse_market_value (pys "€9.5M") =
      Except.ok (some (decTruncMul ((95 : Int), 1) 1000000)) ∧
    parse_market_value (pys "€2K") =
      Except.ok (some (decTruncMul ((2 : Int), 0) 1000)) ∧
    parse_market_value (pys "7") = Except.ok (pyInt? (pmvNorm (pys "7"))) :=
  ⟨c2_market_value_amended.2.2.2.2.1 (pys "€9.5M") (95, 1) (by decide) (by decide),
   c2_market_value_amended.2.2.2.2.2.2.1 (pys "€2K") (2, 0) (by decide) (by decide)
     (by decide),
   c2_market_value_amended.2.2.2.2.2.2.2.1 (pys "7") (by decide) (by decide)⟩

/-- C7: `parse_stat_value` strips one trailing percent sign, normalises a
decimal comma to a decimal point, then parses as float when a decimal point
is present and as integer otherwise, and yields null on empty or unparsable
input: "87%" → 87; "1,5" → 1.5 (the exact decimal 15/10, shown equal to
3/2); "23" → the integer 23; "" → null.  The stripping and normalisation
are also stated as input laws of the function. -/
theorem c7_parse_stat_value :
    parse_stat_value (pys "87%") = some (PyNum.int 87) ∧
    parse_stat_value (pys "1,5") = some (PyNum.float 15 1) ∧
    decVal (15, 1) = 3 / 2 ∧
    parse_stat_value (pys "23") = some (PyNum.int 23) ∧
    parse_stat_value (pys "") = none ∧
    parse_stat_value (pys "abc") = none ∧
    (∀ s, strEndsChar s '%' = false →
      parse_stat_value (s ++ ['%']) = parse_stat_value s) ∧
    (∀ s, parse_stat_value (mapReplace ',' '.' s) = parse_stat_value s) := by
  refine ⟨by decide, by decide, by norm_num [decVal], by decide, by decide,
    by decide, ?_, ?_⟩
  · intro s h
    unfold parse_stat_value
    have h1 : psvStripPct (s ++ ['%']) = s := by
      unfold psvStripPct
      rw [if_pos (strEndsChar_concat s '%'), dropRightN_concat]
    have h2 : psvStripPct s = s := by
      unfold psvStripPct
      rw [h]
      simp
    rw [h1, h2]
  · intro s
    unfold parse_stat_value
    have hp : psvStripPct (mapReplace ',' '.' s) =
        mapReplace ',' '.' (psvStripPct s) := by
      unfold psvStripPct
      rw [strEndsChar_mapReplace_pct]
      by_cases hh : strEndsChar s '%' = true
      · rw [if_pos hh, if_pos hh, dropRightN_mapReplace]
      · rw [if_neg hh, if_neg hh]
    rw [hp, mapReplace_comma_idem]

theorem c7_parse_stat_value_witness :
    parse_stat_value (pys "42" ++ ['%']) = parse_stat_value (pys "42") ∧
    parse_stat_value (mapReplace ',' '.' (pys "3,7")) =
      parse_stat_value (pys "3,7") :=
  ⟨c7_parse_stat_value.2.2.2.2.2.2.1 (pys "42") (by decide),
   c7_parse_stat_value.2.2.2.2.2.2.2 (pys "3,7")⟩

/-- C3: on a page whose club is missing from the store, extraction succeeds
and the wait succeeded, yet the task reports failure and upserts nothing —
because the caught `Club.DoesNotExist` leaves the local `club` unbound and
building the `Player` defaults then raises `UnboundLocalError`.  The spec's
"proceed with a null club reference" behaviour does not happen. -/
theorem c3_club_miss_fails_task :
    pgC3.wait_name_ok = true ∧
    extract_player linkC3 pgC3 = Except.ok eC3 ∧
    clubMatches dbC3 eC3.club_name = [] ∧
    (scrape_player_with_driver dbC3 linkC3 pgC3).1.2 = false ∧
    (scrape_player_with_driver dbC3 linkC3 pgC3).1.1 = dbC3 := by
  refine ⟨rfl, by decide, by decide, by decide, by decide⟩

/-- C5, counterexample: after a successful statistics upsert in which the
label "Goals" was absent from the page, the stored `goals` field still holds
the value 5 retained from the previous run — not null as the claim says. -/
theorem c5_data_upsert_counterexample :
    (scrape_player_with_driver dbC5 linkC5 pgC5).1.2 = true ∧
    stats_section_dict pgC5 =
      Except.ok [(DataField.assists, some (PyNum.int 3))] ∧
    dictGet [(DataField.assists, some (PyNum.int 3))] DataField.goals = none ∧
    storedVal (scrape_player_with_driver dbC5 linkC5 pgC5).1.1.dataRows 7
      DataField.goals = some (PyNum.int 5) := by
  refine ⟨by decide, by decide, by decide, by decide⟩

/-- C5, amended: a successful `Data` upsert sets exactly the fields bound in
this run's parsed stats dict; on row creation every other field is null, and
on update of an existing row every field absent this run retains its
previously stored value (it is NOT reset to null). -/
theorem c5_data_upsert_amended (rows : List (Int × StatsDict)) (fid : Int)
    (sd : StatsDict) (hnd : (sd.map Prod.fst).Nodup)
    (hcount : countKey rows fid ≤ 1) :
    ∃ rows2, update_or_create_data rows fid sd = .ok rows2 ∧
      countKey rows2 fid = 1 ∧
      (∀ f, storedVal rows2 fid f = (dictGet sd f).getD (storedVal rows fid f)) := by
  obtain ⟨rows2, hok, hcnt, hfields, _⟩ := uoc_data_spec rows fid sd hnd hcount
  exact ⟨rows2, hok, hcnt, hfields⟩

theorem c5_data_upsert_witness :
    ∃ rows2, update_or_create_data
        [((7 : Int), [(DataField.goals, some (PyNum.int 5))])] 7
        [(DataField.assists, some (PyNum.int 3))] = .ok rows2 ∧
      countKey rows2 (7 : Int) = 1 ∧
      (∀ f, storedVal rows2 7 f =
        (dictGet [(DataField.assists, some (PyNum.int 3))] f).getD
          (storedVal [((7 : Int), [(DataField.goals, some (PyNum.int 5))])] 7 f)) :=
  c5_data_upsert_amended [((7 : Int), [(DataField.goals, some (PyNum.int 5))])]
    7 [(DataField.assists, some (PyNum.int 3))] (by decide) (by decide)

/-- C4, counterexample: each good page alone yields its squad link, but with a
failing page between them the whole run returns an empty list — the links
collected before the failure are discarded and the page after the failure is
never reached, contradicting "continue with the next URL" and "return what
was collected so far". -/
theorem c4_league_loop_counterexample :
    (get_squad_links dbEmpty [lpGood, lpBad, lpGood2]).1.2 = [] ∧
    (get_squad_links dbEmpty [lpGood]).1.2 =
      [pys "https://www.fotmob.com/teams/1/squad/nantes"] ∧
    (get_squad_links dbEmpty [lpGood2]).1.2 =
      [pys "https://www.fotmob.com/teams/2/squad/lyon"] := by
  refine ⟨by decide, by decide, by decide⟩

/-- C4, amended: the URL loop of `get_squad_links` sits inside a single
function-level `try`: an exception while processing one URL aborts every
remaining URL and the handler returns an empty list, discarding the links
already accumulated (store upserts already performed persist, since the
error carries the mutated store); only when a URL succeeds does the loop
continue with the accumulated links. -/
theorem c4_league_loop_amended (db : DB) (acc : List Str) (p : LeaguePage)
    (ps : List LeaguePage) :
    (∀ db1 tr, process_league_url db p = (.error db1, tr) →
      squad_loop db acc (p :: ps) = ((db1, []), tr)) ∧
    (∀ db1 ls tr, process_league_url db p = (.ok (db1, ls), tr) →
      squad_loop db acc (p :: ps) =
        ((squad_loop db1 (acc ++ ls) ps).1, tr ++ (squad_loop db1 (acc ++ ls) ps).2)) := by
  constructor
  · intro db1 tr h
    conv_lhs => rw [squad_loop]
    rw [h]
  · intro db1 ls tr h
    conv_lhs => rw [squad_loop]
    rw [h]

theorem c4_league_loop_witness :
    squad_loop dbEmpty [pys "kept-so-far"] (lpBad :: [lpGood]) =
      ((dbEmpty, []), []) ∧
    squad_loop dbEmpty [] (lpGood :: [lpBad]) =
      ((squad_loop dbAfterGood
          ([] ++ [pys "https://www.fotmob.com/teams/1/squad/nantes"]) [lpBad]).1,
        [Ev.sop StoreOp.league_goc, Ev.sop StoreOp.club_goc] ++
          (squad_loop dbAfterGood
            ([] ++ [pys "https://www.fotmob.com/teams/1/squad/nantes"]) [lpBad]).2) :=
  ⟨(c4_league_loop_amended dbEmpty [pys "kept-so-far"] lpBad [lpGood]).1 dbEmpty []
     (by decide),
   (c4_league_loop_amended dbEmpty [] lpGood [lpBad]).2 dbAfterGood
     [pys "https://www.fotmob.com/teams/1/squad/nantes"]
     [Ev.sop StoreOp.league_goc, Ev.sop StoreOp.club_goc] (by decide)⟩

theorem opsOutside_sops (ops : List StoreOp) (d : Nat) (hd : d ≠ 0)
    (tr : List Ev) :
    opsOutside d (ops.map Ev.sop ++ tr) = opsOutside d tr := by
  induction ops with
  | nil => rfl
  | cons o os ih => simp [opsOutside, hd, ih]

theorem opsOutside_lockEv (ops : List StoreOp) (tr : List Ev) :
    opsOutside 0 (lockEv ops ++ tr) = opsOutside 0 tr := by
  show opsOutside 0 ((Ev.acq :: (ops.map Ev.sop ++ [Ev.rel])) ++ tr) =
    opsOutside 0 tr
  rw [List.cons_append, List.append_assoc]
  show opsOutside 1 (ops.map Ev.sop ++ ([Ev.rel] ++ tr)) = opsOutside 0 tr
  rw [opsOutside_sops ops 1 (by omega)]
  rfl

theorem opsOutside_lockEv_nil (ops : List StoreOp) :
    opsOutside 0 (lockEv ops) = 0 := by
  have h := opsOutside_lockEv ops []
  rwa [List.append_nil] at h

theorem player_db_block_trace (db : DB) (e : Extracted) :
    ∃ ops, (player_db_block db e).2 = lockEv ops := by
  unfold player_db_block
  split
  · split
    · exact ⟨[StoreOp.club_get, StoreOp.player_uoc], rfl⟩
    · exact ⟨[StoreOp.club_get, StoreOp.player_uoc], rfl⟩
  · exact ⟨[StoreOp.club_get], rfl⟩

theorem data_db_block_trace (db : DB) (fid : Int) (sd : StatsDict) :
    ∃ ops, (data_db_block db fid sd).2 = lockEv ops := by
  unfold data_db_block
  split
  · exact ⟨[StoreOp.data_uoc], rfl⟩
  · exact ⟨[StoreOp.data_uoc], rfl⟩

/-- Every trace a player task can produce is a (possibly empty) sequence of
`db_lock` critical sections. -/
theorem scrape_player_trace_shape (db : DB) (link : Str) (pg : PlayerPage) :
    (scrape_player_with_driver db link pg).2 = [] ∨
    (∃ ops, (scrape_player_with_driver db link pg).2 = lockEv ops) ∨
    (∃ ops1 ops2, (scrape_player_with_driver db link pg).2 =
      lockEv ops1 ++ lockEv ops2) := by
  by_cases hw : pg.wait_name_ok = true
  · cases hex : extract_player link pg with
    | error u =>
      unfold scrape_player_with_driver
      simp only [hw, if_true, hex]
      exact Or.inl trivial
    | ok e =>
      cases hpb : player_db_block db e with
      | mk r tr =>
        obtain ⟨ops1, hops1⟩ := player_db_block_trace db e
        rw [hpb] at hops1
        simp only at hops1
        cases r with
        | error u =>
          unfold scrape_player_with_driver
          simp only [hw, if_true, hex, hpb]
          exact Or.inr (Or.inl ⟨ops1, hops1⟩)
        | ok db1 =>
          cases hsd : stats_section_dict pg with
          | error u2 =>
            unfold scrape_player_with_driver
            simp only [hw, if_true, hex, hpb, hsd]
            exact Or.inr (Or.inl ⟨ops1, hops1⟩)
          | ok sd =>
            obtain ⟨ops2, hops2⟩ := data_db_block_trace db1 e.fid sd
            cases hdb : data_db_block db1 e.fid sd with
            | mk r2 tr2 =>
              rw [hdb] at hops2
              simp only at hops2
              cases r2 with
              | error u3 =>
                unfold scrape_player_with_driver
                simp only [hw, if_true, hex, hpb, hsd, hdb]
                exact Or.inr (Or.inr ⟨ops1, ops2, by rw [hops1, hops2]⟩)
              | ok db2 =>
                unfold scrape_player_with_driver
                simp only [hw, if_true, hex, hpb, hsd, hdb]
                exact Or.inr (Or.inr ⟨ops1, ops2, by rw [hops1, hops2]⟩)
  · unfold scrape_player_with_driver
    simp only [Bool.not_eq_true] at hw
    simp only [hw, Bool.false_eq_true, if_false]
    exact Or.inl trivial

theorem process_anchors_no_acq (title : Option Str) :
    ∀ (anchors : List LeagueAnchor) (db : DB),
      Ev.acq ∉ (process_anchors db title anchors).2 := by
  intro anchors
  induction anchors with
  | nil =>
    intro db
    simp [process_anchors]
  | cons a rest ih =>
    intro db
    unfold process_anchors
    split
    · exact ih db
    · split
      · split
        · simp
        · split
          · simp
          · intro hmem
            simp only [List.mem_cons] at hmem
            rcases hmem with h1 | h1 | h1
            · exact Ev.noConfusion h1
            · exact Ev.noConfusion h1
            · exact ih _ h1
      · exact ih db

theorem process_league_url_no_acq (db : DB) (p : LeaguePage) :
    Ev.acq ∉ (process_league_url db p).2 := by
  unfold process_league_url
  by_cases hw : p.wait_ok = true
  · rw [if_pos hw]
    cases p.league_title with
    | none => simp
    | some t => exact process_anchors_no_acq t p.anchors db
  · rw [if_neg hw]
    simp

theorem squad_loop_no_acq :
    ∀ (pages : List LeaguePage) (db : DB) (acc : List Str),
      Ev.acq ∉ (squad_loop db acc pages).2 := by
  intro pages
  induction pages with
  | nil =>
    intro db acc
    simp [squad_loop]
  | cons p ps ih =>
    intro db acc
    have hp := process_league_url_no_acq db p
    conv => rw [squad_loop]
    cases hpl : process_league_url db p with
    | mk r tr =>
      rw [hpl] at hp
      simp only at hp
      cases r with
      | error db1 => exact hp
      | ok pr =>
        simp only [List.mem_append]
        intro hmem
        rcases hmem with h1 | h1
        · exact hp h1
        · exact ih pr.1 (acc ++ pr.2) h1

theorem opsInside_zero_of_no_acq (tr : List Ev) (h : Ev.acq ∉ tr) :
    opsInside 0 tr = 0 := by
  induction tr with
  | nil => rfl
  | cons e rest ih =>
    simp only [List.mem_cons] at h
    push_neg at h
    cases e with
    | acq => exact absurd rfl (fun hc => h.1 hc.symm)
    | rel =>
      show opsInside (0 - 1) rest = 0
      exact ih h.2
    | sop o =>
      show (if 0 = 0 then 0 else 1) + opsInside 0 rest = 0
      rw [if_pos rfl, ih h.2]

/-- C9, counterexample: the League and Club `get_or_create` calls of the
league-collection stage run with no lock held — processing one good league
page produces two store operations outside any critical section. -/
theorem c9_unlocked_league_writes_counterexample :
    (get_squad_links dbEmpty [lpGood]).2 =
      [Ev.sop StoreOp.league_goc, Ev.sop StoreOp.club_goc] ∧
    opsOutside 0 ((get_squad_links dbEmpty [lpGood]).2) = 2 := by
  refine ⟨by decide, by decide⟩

/-- C9, amended: the player task runs every one of its store operations (the
club read, the Player upsert and the Data upsert) inside critical sections of
the single `db_lock`, while the league-collection stage runs all of its
League/Club get-or-create operations outside any critical section (it
executes sequentially before the worker pools start). -/
theorem c9_lock_discipline_amended :
    (∀ db link pg, opsOutside 0 ((scrape_player_with_driver db link pg).2) = 0) ∧
    (∀ db pages, opsInside 0 ((get_squad_links db pages).2) = 0) := by
  constructor
  · intro db link pg
    rcases scrape_player_trace_shape db link pg with h | ⟨ops, h⟩ | ⟨ops1, ops2, h⟩
    · rw [h]
      rfl
    · rw [h]
      exact opsOutside_lockEv_nil ops
    · rw [h, opsOutside_lockEv]
      exact opsOutside_lockEv_nil ops2
  · intro db pages
    exact opsInside_zero_of_no_acq _ (squad_loop_no_acq pages db [])

/-- Behaviour of the inner label-matching fold on one field key, given that
every dictionary entry carrying the key has the same label `L`: when the
item title equals `L` and the key occurs, the key ends bound to this item's
parsed value; otherwise the key's binding is untouched. -/
theorem entries_fold_get (t v : Option Str) (k : DataField) (L : Str) :
    ∀ (E : List (DataField × Str)) (d d' : StatsDict),
      (∀ e ∈ E, e.1 = k → e.2 = L) →
      entries_fold t v E d = .ok d' →
      ((k ∈ E.map Prod.fst ∧ t = some L →
        ∃ s, v = some s ∧ dictGet d' k = some (parse_stat_value s)) ∧
       (¬(k ∈ E.map Prod.fst ∧ t = some L) → dictGet d' k = dictGet d k)) := by
  intro E
  induction E with
  | nil =>
    intro d d' hkL hok
    simp only [entries_fold] at hok
    cases hok
    constructor
    · intro hx
      simp at hx
    · intro _
      rfl
  | cons e es ih =>
    intro d d' hkL hok
    rw [entries_fold.eq_def] at hok
    simp only at hok
    by_cases ht : t = some e.2
    · rw [if_pos ht] at hok
      cases hv : v with
      | none =>
        rw [hv] at hok
        simp at hok
      | some s =>
        rw [hv] at hok
        simp only at hok
        rw [← hv] at hok
        have ihs := ih (dictInsert d e.1 (parse_stat_value s)) d'
          (fun x hx hk => hkL x (List.mem_cons_of_mem e hx) hk) hok
        by_cases hek : e.1 = k
        · have heL : e.2 = L := hkL e (List.mem_cons_self e es) hek
          have htL : t = some L := heL ▸ ht
          constructor
          · intro _
            refine ⟨s, rfl, ?_⟩
            by_cases hmem : k ∈ es.map Prod.fst ∧ t = some L
            · obtain ⟨s2, hs2, hget⟩ := ihs.1 hmem
              have : s2 = s := by
                rw [hv] at hs2
                exact (Option.some_inj.mp hs2).symm
              rw [hget, this]
            · rw [ihs.2 hmem, ← hek, dictGet_insert_self]
          · intro hn
            exact absurd ⟨by simp [← hek], htL⟩ hn
        · constructor
          · intro ⟨hmem, htL⟩
            simp only [List.map_cons, List.mem_cons] at hmem
            rcases hmem with h1 | h1
            · exact absurd h1.symm hek
            · obtain ⟨s2, hs2, hget⟩ := ihs.1 ⟨h1, htL⟩
              refine ⟨s2, ?_, hget⟩
              rw [← hv, hs2]
          · intro hn
            have hn2 : ¬(k ∈ es.map Prod.fst ∧ t = some L) := by
              intro ⟨h1, h2⟩
              exact hn ⟨by simp [h1], h2⟩
            rw [ihs.2 hn2,
              dictGet_insert_ne d e.1 k (parse_stat_value s) (fun hc => hek hc.symm)]
    · rw [if_neg ht] at hok
      have ihs := ih d d'
        (fun x hx hk => hkL x (List.mem_cons_of_mem e hx) hk) hok
      constructor
      · intro ⟨hmem, htL⟩
        simp only [List.map_cons, List.mem_cons] at hmem
        rcases hmem with h1 | h1
        · exact absurd (hkL e (List.mem_cons_self e es) h1.symm ▸ htL) ht
        · exact ihs.1 ⟨h1, htL⟩
      · intro hn
        have hn2 : ¬(k ∈ es.map Prod.fst ∧ t = some L) := by
          intro ⟨h1, h2⟩
          exact hn ⟨by simp [h1], h2⟩
        exact ihs.2 hn2

/-- Two field keys whose only dictionary entries carry one shared label end
every stats build with identical bindings. -/
theorem build_stats_pair (k1 k2 : DataField) (L : Str)
    (h1 : ∀ e ∈ data_match_dict, e.1 = k1 → e.2 = L)
    (h2 : ∀ e ∈ data_match_dict, e.1 = k2 → e.2 = L)
    (hm1 : k1 ∈ data_match_dict.map Prod.fst)
    (hm2 : k2 ∈ data_match_dict.map Prod.fst) :
    ∀ (items : List (Option (Option Str × Option Str))) (d d' : StatsDict),
      dictGet d k1 = dictGet d k2 →
      build_stats items d = .ok d' →
      dictGet d' k1 = dictGet d' k2 := by
  intro items
  induction items with
  | nil =>
    intro d d' heq hok
    simp only [build_stats] at hok
    cases hok
    exact heq
  | cons it rest ih =>
    intro d d' heq hok
    cases it with
    | none => simp [build_stats] at hok
    | some tv =>
      cases tv with
      | mk t v =>
        simp only [build_stats] at hok
        cases hef : entries_fold t v data_match_dict d with
        | error u =>
          rw [hef] at hok
          simp at hok
        | ok d1 =>
          rw [hef] at hok
          simp only at hok
          have g1 := entries_fold_get t v k1 L data_match_dict d d1 h1 hef
          have g2 := entries_fold_get t v k2 L data_match_dict d d1 h2 hef
          apply ih d1 d' ?_ hok
          by_cases htL : t = some L
          · obtain ⟨s1, hs1, hget1⟩ := g1.1 ⟨hm1, htL⟩
            obtain ⟨s2, hs2, hget2⟩ := g2.1 ⟨hm2, htL⟩
            rw [hget1, hget2]
            have hss : s1 = s2 := by
              rw [hs1] at hs2
              exact Option.some_inj.mp hs2
            rw [hss]
          · rw [g1.2 (fun hx => htL hx.2), g2.2 (fun hx => htL hx.2)]
            exact heq

/-- C10: because `data_match_dict` maps both the outfield key and its
gk-prefixed counterpart to the same label for "Pass accuracy", "Accurate
long balls" and "Long ball accuracy", every successful stats build binds the
two keys of each pair identically — one stat item bearing such a label
always sets both fields to the same parsed value, and the two fields can
never be populated independently in one run. -/
theorem c10_shared_label_pairs (items : List (Option (Option Str × Option Str)))
    (sd : StatsDict) (hok : build_stats items [] = .ok sd) :
    dictGet sd DataField.pass_accuracy = dictGet sd DataField.gk_pass_accuracy ∧
    dictGet sd DataField.accurate_long_balls =
      dictGet sd DataField.gk_accurate_long_balls ∧
    dictGet sd DataField.long_ball_accuracy =
      dictGet sd DataField.gk_long_ball_accuracy := by
  refine ⟨?_, ?_, ?_⟩
  · exact build_stats_pair DataField.pass_accuracy DataField.gk_pass_accuracy
      (pys "Pass accuracy") (by decide) (by decide) (by decide) (by decide)
      items [] sd rfl hok
  · exact build_stats_pair DataField.accurate_long_balls
      DataField.gk_accurate_long_balls (pys "Accurate long balls")
      (by decide) (by decide) (by decide) (by decide) items [] sd rfl hok
  · exact build_stats_pair DataField.long_ball_accuracy
      DataField.gk_long_ball_accuracy (pys "Long ball accuracy")
      (by decide) (by decide) (by decide) (by decide) items [] sd rfl hok

theorem c10_shared_label_pairs_witness :
    dictGet [(DataField.pass_accuracy, some (PyNum.int 85)),
        (DataField.gk_pass_accuracy, some (PyNum.int 85))]
      DataField.pass_accuracy =
    dictGet [(DataField.pass_accuracy, some (PyNum.int 85)),
        (DataField.gk_pass_accuracy, some (PyNum.int 85))]
      DataField.gk_pass_accuracy :=
  (c10_shared_label_pairs
    [some (some (pys "Pass accuracy"), some (pys "85%"))]
    [(DataField.pass_accuracy, some (PyNum.int 85)),
     (DataField.gk_pass_accuracy, some (PyNum.int 85))] (by decide)).1

theorem foldl_append_flatten {α : Type} (L : List (List α)) :
    ∀ acc : List α, L.foldl (fun a l => a ++ l) acc = acc ++ L.flatten := by
  induction L with
  | nil =>
    intro acc
    simp
  | cons l ls ih =>
    intro acc
    simp only [List.foldl_cons, List.flatten_cons, ih, List.append_assoc]

/-- C8: the team-collection fan-in is the concatenation of each completed
task's result list (in completion order, an arbitrary permutation of the
submitted teams), so for any worker-pool size from 1 up its size equals the
sum of each team's individually discovered player-link count; a failed team
contributes an empty list. -/
theorem c8_fan_in_completeness (teams : List TeamPage) (order : List (List Str))
    (W : Nat) (_hW : 1 ≤ W)
    (hperm : order.Perm (teams.map scrape_team_players)) :
    get_player_links_multithreaded order = order.flatten ∧
    (get_player_links_multithreaded order).length =
      (teams.map (fun p => (scrape_team_players p).length)).sum := by
  have h1 : get_player_links_multithreaded order = order.flatten := by
    unfold get_player_links_multithreaded
    rw [foldl_append_flatten order []]
    rfl
  refine ⟨h1, ?_⟩
  rw [h1, List.length_flatten]
  have h2 := (hperm.map List.length).sum_eq
  rw [List.map_map] at h2
  exact h2

theorem c8_fan_in_completeness_witness :
    get_player_links_multithreaded
        [[], [pys "https://www.fotmob.com/players/1/a"]] =
      [[], [pys "https://www.fotmob.com/players/1/a"]].flatten ∧
    (get_player_links_multithreaded
        [[], [pys "https://www.fotmob.com/players/1/a"]]).length =
      ([tpA, tpB].map (fun p => (scrape_team_players p).length)).sum :=
  c8_fan_in_completeness [tpA, tpB]
    [[], [pys "https://www.fotmob.com/players/1/a"]] 2 (by decide) (by decide)

theorem player_db_block_eval (db : DB) (e : Extracted) (c0 : Nat × Str × Nat)
    (ps : List (Int × PlayerFields))
    (hclub : clubMatches db e.club_name = [c0])
    (hps : update_or_create_player db.players e.fid (mkFields e c0.1) = .ok ps) :
    player_db_block db e = (.ok { db with players := ps },
      lockEv [StoreOp.club_get, StoreOp.player_uoc]) := by
  unfold player_db_block
  rw [hclub]
  simp only [hps]

theorem spwd_eval_full (db : DB) (link : Str) (pg : PlayerPage) (e : Extracted)
    (c0 : Nat × Str × Nat) (ps : List (Int × PlayerFields)) (sd : StatsDict)
    (ds : List (Int × StatsDict))
    (hw : pg.wait_name_ok = true)
    (hex : extract_player link pg = .ok e)
    (hclub : clubMatches db e.club_name = [c0])
    (hps : update_or_create_player db.players e.fid (mkFields e c0.1) = .ok ps)
    (hsd : stats_section_dict pg = .ok sd)
    (hds : update_or_create_data db.dataRows e.fid sd = .ok ds) :
    (scrape_player_with_driver db link pg).1 =
      ({ db with players := ps, dataRows := ds }, true) := by
  have hpb := player_db_block_eval db e c0 ps hclub hps
  have hdb : data_db_block { db with players := ps } e.fid sd =
      (.ok { db with players := ps, dataRows := ds },
        lockEv [StoreOp.data_uoc]) := by
    unfold data_db_block
    simp only [hds]
  unfold scrape_player_with_driver
  simp only [hw, if_true, hex, hpb, hsd, hdb]

theorem spwd_eval_stats_err (db : DB) (link : Str) (pg : PlayerPage)
    (e : Extracted) (c0 : Nat × Str × Nat) (ps : List (Int × PlayerFields))
    (hw : pg.wait_name_ok = true)
    (hex : extract_player link pg = .ok e)
    (hclub : clubMatches db e.club_name = [c0])
    (hps : update_or_create_player db.players e.fid (mkFields e c0.1) = .ok ps)
    (hsd : stats_section_dict pg = .error ()) :
    (scrape_player_with_driver db link pg).1 =
      ({ db with players := ps }, true) := by
  have hpb := player_db_block_eval db e c0 ps hclub hps
  unfold scrape_player_with_driver
  simp only [hw, if_true, hex, hpb, hsd]

theorem spwd_eval_data_err (db : DB) (link : Str) (pg : PlayerPage)
    (e : Extracted) (c0 : Nat × Str × Nat) (ps : List (Int × PlayerFields))
    (sd : StatsDict)
    (hw : pg.wait_name_ok = true)
    (hex : extract_player link pg = .ok e)
    (hclub : clubMatches db e.club_name = [c0])
    (hps : update_or_create_player db.players e.fid (mkFields e c0.1) = .ok ps)
    (hsd : stats_section_dict pg = .ok sd)
    (hds : update_or_create_data db.dataRows e.fid sd = .error ()) :
    (scrape_player_with_driver db link pg).1 =
      ({ db with players := ps }, true) := by
  have hpb := player_db_block_eval db e c0 ps hclub hps
  have hdb : data_db_block { db with players := ps } e.fid sd =
      (.error (), lockEv [StoreOp.data_uoc]) := by
    unfold data_db_block
    simp only [hds]
  unfold scrape_player_with_driver
  simp only [hw, if_true, hex, hpb, hsd, hdb]

theorem spwd_eval_wait_false (db : DB) (link : Str) (pg : PlayerPage)
    (hw : pg.wait_name_ok = false) :
    scrape_player_with_driver db link pg = ((db, false), []) := by
  unfold scrape_player_with_driver
  simp only [hw, Bool.false_eq_true, if_false]

theorem spwd_eval_extract_err (db : DB) (link : Str) (pg : PlayerPage)
    (hw : pg.wait_name_ok = true)
    (hex : extract_player link pg = .error ()) :
    scrape_player_with_driver db link pg = ((db, false), []) := by
  unfold scrape_player_with_driver
  simp only [hw, if_true, hex]

theorem mem_keys_dictInsert {K V : Type} [DecidableEq K] (d : List (K × V))
    (k a : K) (v : V) (h : a ∈ (dictInsert d k v).map Prod.fst) :
    a = k ∨ a ∈ d.map Prod.fst := by
  induction d with
  | nil =>
    simp [dictInsert] at h
    exact Or.inl h
  | cons e es ih =>
    rw [dictInsert_cons] at h
    by_cases he : e.1 = k
    · rw [if_pos he] at h
      simp only [List.map_cons, List.mem_cons] at h
      rcases h with h1 | h1
      · exact Or.inl h1
      · exact Or.inr (by simp [h1])
    · rw [if_neg he] at h
      simp only [List.map_cons, List.mem_cons] at h
      rcases h with h1 | h1
      · exact Or.inr (by simp [h1])
      · rcases ih h1 with h2 | h2
        · exact Or.inl h2
        · exact Or.inr (by simp [h2])

theorem nodup_keys_dictInsert {K V : Type} [DecidableEq K] (d : List (K × V))
    (k : K) (v : V) (h : (d.map Prod.fst).Nodup) :
    ((dictInsert d k v).map Prod.fst).Nodup := by
  induction d with
  | nil => simp [dictInsert]
  | cons e es ih =>
    simp only [List.map_cons, List.nodup_cons] at h
    rw [dictInsert_cons]
    by_cases he : e.1 = k
    · rw [if_pos he]
      simp only [List.map_cons, List.nodup_cons]
      exact ⟨he ▸ h.1, h.2⟩
    · rw [if_neg he]
      simp only [List.map_cons, List.nodup_cons]
      refine ⟨?_, ih h.2⟩
      intro hm
      rcases mem_keys_dictInsert es k e.1 v hm with h1 | h1
      · exact he h1
      · exact h.1 h1

theorem entries_fold_nodup (t v : Option Str) :
    ∀ (E : List (DataField × Str)) (d d' : StatsDict),
      (d.map Prod.fst).Nodup → entries_fold t v E d = .ok d' →
      (d'.map Prod.fst).Nodup := by
  intro E
  induction E with
  | nil =>
    intro d d' hnd hok
    simp only [entries_fold] at hok
    cases hok
    exact hnd
  | cons e es ih =>
    intro d d' hnd hok
    rw [entries_fold.eq_def] at hok
    simp only at hok
    by_cases ht : t = some e.2
    · rw [if_pos ht] at hok
      cases hv : v with
      | none =>
        rw [hv] at hok
        simp at hok
      | some s =>
        rw [hv] at hok
        simp only at hok
        rw [← hv] at hok
        exact ih (dictInsert d e.1 (parse_stat_value s)) d'
          (nodup_keys_dictInsert d e.1 (parse_stat_value s) hnd) hok
    · rw [if_neg ht] at hok
      exact ih d d' hnd hok

theorem build_stats_nodup :
    ∀ (items : List (Option (Option Str × Option Str))) (d d' : StatsDict),
      (d.map Prod.fst).Nodup → build_stats items d = .ok d' →
      (d'.map Prod.fst).Nodup := by
  intro items
  induction items with
  | nil =>
    intro d d' hnd hok
    simp only [build_stats] at hok
    cases hok
    exact hnd
  | cons it rest ih =>
    intro d d' hnd hok
    cases it with
    | none => simp [build_stats] at hok
    | some tv =>
      cases tv with
      | mk t v =>
        simp only [build_stats] at hok
        cases hef : entries_fold t v data_match_dict d with
        | error u =>
          rw [hef] at hok
          simp at hok
        | ok d1 =>
          rw [hef] at hok
          simp only at hok
          exact ih d1 d' (entries_fold_nodup t v data_match_dict d d1 hnd hef) hok

theorem stats_section_nodup (pg : PlayerPage) (sd : StatsDict)
    (h : stats_section_dict pg = .ok sd) : (sd.map Prod.fst).Nodup := by
  unfold stats_section_dict at h
  by_cases hwk : pg.stats_wait_ok = true
  · rw [if_pos hwk] at h
    exact build_stats_nodup pg.stat_items [] sd (by simp) h
  · rw [if_neg hwk] at h
    exact absurd h (by simp)

/-- C1: starting from a store holding no Player row and no Data row for the
extracted external identifier, running the player task twice against the
same rendered content succeeds both times and leaves exactly one Player row
and one Data row for that identifier; the Player row holds exactly the
(second run's) extracted fields, and every Data field equals this run's
parsed stats value — null when its label was absent from the page. -/
theorem c1_player_extraction_idempotent (db : DB) (link : Str)
    (pg : PlayerPage) (e : Extracted) (c0 : Nat × Str × Nat) (sd : StatsDict)
    (hw : pg.wait_name_ok = true)
    (hex : extract_player link pg = .ok e)
    (hclub : clubMatches db e.club_name = [c0])
    (hn : e.name ≠ none) (hcty : e.bio.country ≠ none)
    (hsd : stats_section_dict pg = .ok sd)
    (hp0 : countKey db.players e.fid = 0)
    (hd0 : countKey db.dataRows e.fid = 0) :
    ∃ db2 : DB,
      (scrape_player_with_driver db link pg).1.2 = true ∧
      (scrape_player_with_driver
        (scrape_player_with_driver db link pg).1.1 link pg).1 = (db2, true) ∧
      countKey db2.players e.fid = 1 ∧
      dictGet db2.players e.fid = some (mkFields e c0.1) ∧
      countKey db2.dataRows e.fid = 1 ∧
      (∀ f, storedVal db2.dataRows e.fid f = (dictGet sd f).getD none) := by
  have hnd : (sd.map Prod.fst).Nodup := stats_section_nodup pg sd hsd
  have hn' : (mkFields e c0.1).name ≠ none := hn
  have hc' : (mkFields e c0.1).country ≠ none := hcty
  obtain ⟨ps, hps, hpget, hpcnt, hpoth⟩ :=
    uoc_player_ok db.players e.fid (mkFields e c0.1) hn' hc' (by omega)
  obtain ⟨ds, hds, hdcnt, hdf, hdoth⟩ :=
    uoc_data_spec db.dataRows e.fid sd hnd (by omega)
  have hrun1 := spwd_eval_full db link pg e c0 ps sd ds hw hex hclub hps hsd hds
  have hclub2 : clubMatches { db with players := ps, dataRows := ds }
      e.club_name = [c0] := hclub
  obtain ⟨ps2, hps2, hpget2, hpcnt2, hpoth2⟩ :=
    uoc_player_ok ({ db with players := ps, dataRows := ds } : DB).players
      e.fid (mkFields e c0.1) hn' hc'
      (by show countKey ps e.fid ≤ 1; omega)
  obtain ⟨ds2, hds2, hdcnt2, hdf2, hdoth2⟩ :=
    uoc_data_spec ({ db with players := ps, dataRows := ds } : DB).dataRows
      e.fid sd hnd (by show countKey ds e.fid ≤ 1; omega)
  have hrun2 := spwd_eval_full { db with players := ps, dataRows := ds }
    link pg e c0 ps2 sd ds2 hw hex hclub2 hps2 hsd hds2
  refine ⟨{ db with players := ps2, dataRows := ds2 }, ?_, ?_, ?_, ?_, ?_, ?_⟩
  · rw [hrun1]
  · rw [hrun1]
    exact hrun2
  · exact hpcnt2
  · exact hpget2
  · exact hdcnt2
  · intro f
    have h1 := hdf2 f
    have h0 : storedVal db.dataRows e.fid f = none := by
      unfold storedVal
      rw [(countKey_eq_zero_iff db.dataRows e.fid).mp hd0]
      rfl
    have h2 := hdf f
    rw [h0] at h2
    show storedVal ds2 e.fid f = (dictGet sd f).getD none
    have h1' : storedVal ds2 e.fid f =
        (dictGet sd f).getD (storedVal ds e.fid f) := h1
    rw [h1', h2]
    cases hg : dictGet sd f with
    | some v => rfl
    | none => rfl

theorem GoodTask_congr (db db' : DB) (h : db'.clubs = db.clubs)
    (t : Str × PlayerPage) (hg : GoodTask db t) : GoodTask db' t := by
  obtain ⟨hw, e, c0, hex, hn, hc, hclub⟩ := hg
  refine ⟨hw, e, c0, hex, hn, hc, ?_⟩
  unfold clubMatches
  rw [h]
  exact hclub

theorem task_bad (db : DB) (t : Str × PlayerPage) (hb : BadTask t) :
    scrape_player_with_driver db t.1 t.2 = ((db, false), []) := by
  rcases hb with h | h
  · exact spwd_eval_wait_false db t.1 t.2 h
  · by_cases hw : t.2.wait_name_ok = true
    · exact spwd_eval_extract_err db t.1 t.2 hw h
    · exact spwd_eval_wait_false db t.1 t.2 (by simpa using hw)

/-- A good task under the store invariant succeeds, touches only its own
player key, preserves the invariant and the club table, and leaves its own
player row present. -/
theorem task_good (db : DB) (t : Str × PlayerPage) (hinv : StoreInv db)
    (hg : GoodTask db t) :
    ∃ db1, (scrape_player_with_driver db t.1 t.2).1 = (db1, true) ∧
      db1.clubs = db.clubs ∧ StoreInv db1 ∧
      (∀ k, dictGet db.players k ≠ none → dictGet db1.players k ≠ none) ∧
      (∀ e, extract_player t.1 t.2 = .ok e →
        dictGet db1.players e.fid ≠ none) := by
  obtain ⟨hw, e0, c0, hex, hn, hc, hclub⟩ := hg
  obtain ⟨ps, hps, hpget, hpcnt, hpoth⟩ :=
    uoc_player_ok db.players e0.fid (mkFields e0 c0.1) hn hc (hinv.1 e0.fid)
  have hpres : ∀ k, dictGet db.players k ≠ none → dictGet ps k ≠ none := by
    intro k hk
    by_cases hke : k = e0.fid
    · rw [hke, hpget]
      simp
    · rw [(hpoth k hke).1]
      exact hk
  have hpinv : ∀ k, countKey ps k ≤ 1 := by
    intro k
    by_cases hke : k = e0.fid
    · rw [hke, hpcnt]
    · rw [(hpoth k hke).2]
      exact hinv.1 k
  have hown : ∀ e, extract_player t.1 t.2 = .ok e →
      dictGet ps e.fid ≠ none := by
    intro e hexe
    rw [hex] at hexe
    injection hexe with he
    subst he
    rw [hpget]
    simp
  cases hsd : stats_section_dict t.2 with
  | error u =>
    cases u
    have heval := spwd_eval_stats_err db t.1 t.2 e0 c0 ps hw hex hclub hps hsd
    exact ⟨{ db with players := ps }, heval, rfl,
      ⟨hpinv, hinv.2⟩, hpres, hown⟩
  | ok sd =>
    have hnd := stats_section_nodup t.2 sd hsd
    obtain ⟨ds, hds, hdcnt, hdflds, hdoth⟩ :=
      uoc_data_spec db.dataRows e0.fid sd hnd (hinv.2 e0.fid)
    have heval := spwd_eval_full db t.1 t.2 e0 c0 ps sd ds hw hex hclub hps hsd hds
    have hdinv : ∀ k, countKey ds k ≤ 1 := by
      intro k
      by_cases hke : k = e0.fid
      · rw [hke, hdcnt]
      · rw [(hdoth k hke).2]
        exact hinv.2 k
    exact ⟨{ db with players := ps, dataRows := ds }, heval, rfl,
      ⟨hpinv, hdinv⟩, hpres, hown⟩

/-- A batch of good tasks under the invariant: every task succeeds, nothing
fails, the invariant and club table are preserved, already-present player
rows stay present, and each task's own player row is present at the end. -/
theorem batch_good :
    ∀ (ts : List (Str × PlayerPage)) (db : DB), StoreInv db →
      (∀ t ∈ ts, GoodTask db t) →
      ∃ db', get_player_data_multithreaded db ts = (db', ts.length, 0) ∧
        StoreInv db' ∧ db'.clubs = db.clubs ∧
        (∀ k, dictGet db.players k ≠ none → dictGet db'.players k ≠ none) ∧
        (∀ t ∈ ts, ∀ e, extract_player t.1 t.2 = .ok e →
          dictGet db'.players e.fid ≠ none) := by
  intro ts
  induction ts with
  | nil =>
    intro db hinv _
    exact ⟨db, rfl, hinv, rfl, fun k hk => hk, by simp⟩
  | cons t rest ih =>
    intro db hinv hg
    obtain ⟨db1, heval, hclubs, hinv1, hmono1, hown1⟩ :=
      task_good db t hinv (hg t (by simp))
    obtain ⟨db', hrest, hinv', hclubs', hmono', hown'⟩ :=
      ih db1 hinv1 (fun t' ht' =>
        GoodTask_congr db db1 hclubs t' (hg t' (by simp [ht'])))
    refine ⟨db', ?_, hinv', hclubs'.trans hclubs, fun k hk => hmono' k (hmono1 k hk), ?_⟩
    · show get_player_data_multithreaded db (t :: rest) = (db', rest.length + 1, 0)
      simp only [get_player_data_multithreaded]
      have h1 : (scrape_player_with_driver db t.1 t.2).1.1 = db1 := by
        rw [heval]
      have h2 : (scrape_player_with_driver db t.1 t.2).1.2 = true := by
        rw [heval]
      rw [h1, h2, hrest]
      simp
    · intro t' ht' e hexe
      simp only [List.mem_cons] at ht'
      rcases ht' with h | h
      · subst h
        exact hmono' e.fid (hown1 e hexe)
      · exact hown' t' h e hexe

/-- C6: in a batch of player tasks where every task but one is well-formed
(under the store uniqueness invariant) and exactly one raises
mid-extraction, the batch completes counting one failure and a success for
every other task — the raising task never aborts the pool, the store is
untouched by it, and every good task's Player row is persisted at the end.
With ten tasks of which one raises this gives exactly 9 successes and 1
failure and 9 persisted Player rows; a good task whose statistics block is
absent still counts as a success (`GoodTask` does not constrain the stats
wait). -/
theorem c6_partial_failure_isolation (db : DB)
    (pre post : List (Str × PlayerPage)) (bad : Str × PlayerPage)
    (hinv : StoreInv db)
    (hg : ∀ t ∈ pre ++ post, GoodTask db t)
    (hb : BadTask bad) :
    ∃ db', get_player_data_multithreaded db (pre ++ bad :: post) =
        (db', pre.length + post.length, 1) ∧
      StoreInv db' ∧
      (∀ k, dictGet db.players k ≠ none → dictGet db'.players k ≠ none) ∧
      (∀ t ∈ pre ++ post, ∀ e, extract_player t.1 t.2 = .ok e →
        dictGet db'.players e.fid ≠ none) := by
  induction pre generalizing db with
  | nil =>
    obtain ⟨db', hpost, hinv', hclubs', hmono', hown'⟩ :=
      batch_good post db hinv (by rw [List.nil_append] at hg; exact hg)
    refine ⟨db', ?_, hinv', hmono', by rw [List.nil_append]; exact hown'⟩
    show get_player_data_multithreaded db (bad :: post) = (db', 0 + post.length, 1)
    simp only [get_player_data_multithreaded]
    have h1 : (scrape_player_with_driver db bad.1 bad.2).1.1 = db := by
      rw [task_bad db bad hb]
    have h2 : (scrape_player_with_driver db bad.1 bad.2).1.2 = false := by
      rw [task_bad db bad hb]
    rw [h1, h2, hpost]
    simp
  | cons t pre ih =>
    obtain ⟨db1, heval, hclubs, hinv1, hmono1, hown1⟩ :=
      task_good db t hinv (hg t (by simp))
    have hg1 : ∀ t' ∈ pre ++ post, GoodTask db1 t' := fun t' ht' =>
      GoodTask_congr db db1 hclubs t' (hg t' (by
        simp only [List.cons_append, List.mem_cons]
        exact Or.inr ht'))
    obtain ⟨db', hrest, hinv', hmono', hown'⟩ := ih db1 hinv1 hg1
    refine ⟨db', ?_, hinv', fun k hk => hmono' k (hmono1 k hk), ?_⟩
    · show get_player_data_multithreaded db (t :: (pre ++ bad :: post)) =
        (db', (t :: pre).length + post.length, 1)
      simp only [get_player_data_multithreaded]
      have h1 : (scrape_player_with_driver db t.1 t.2).1.1 = db1 := by
        rw [heval]
      have h2 : (scrape_player_with_driver db t.1 t.2).1.2 = true := by
        rw [heval]
      rw [h1, h2, hrest]
      have harith : pre.length + post.length + 1 = pre.length + 1 + post.length := by
        omega
      simp [harith]
    · intro t' ht' e hexe
      simp only [List.cons_append, List.mem_cons] at ht'
      rcases ht' with h | h
      · subst h
        exact hmono' e.fid (hown1 e hexe)
      · exact hown' t' h e hexe

theorem goodTaskCheck_sound (db : DB) (t : Str × PlayerPage)
    (h : goodTaskCheck db t = true) : GoodTask db t := by
  unfold goodTaskCheck at h
  rw [Bool.and_eq_true] at h
  obtain ⟨hw, h2⟩ := h
  cases hex : extract_player t.1 t.2 with
  | error u =>
    rw [hex] at h2
    simp at h2
  | ok e =>
    rw [hex] at h2
    simp only at h2
    rw [Bool.and_eq_true, Bool.and_eq_true] at h2
    obtain ⟨⟨hn, hc⟩, hcl⟩ := h2
    cases hm : clubMatches db e.club_name with
    | nil =>
      rw [hm] at hcl
      simp at hcl
    | cons c cs =>
      cases cs with
      | nil =>
        exact ⟨hw, e, c, hex, by rw [← Option.isSome_iff_ne_none]; exact hn,
          by rw [← Option.isSome_iff_ne_none]; exact hc, hm⟩
      | cons c2 cs2 =>
        rw [hm] at hcl
        simp at hcl

theorem c6_partial_failure_isolation_witness :
    ∃ db', get_player_data_multithreaded dbW6 (preW6 ++ wBad :: postW6) =
        (db', 9, 1) ∧
      StoreInv db' ∧
      (∀ k, dictGet dbW6.players k ≠ none → dictGet db'.players k ≠ none) ∧
      (∀ t ∈ preW6 ++ postW6, ∀ e, extract_player t.1 t.2 = .ok e →
        dictGet db'.players e.fid ≠ none) := by
  have hall : ∀ t ∈ preW6 ++ postW6, goodTaskCheck dbW6 t = true := by decide
  exact c6_partial_failure_isolation dbW6 preW6 postW6 wBad
    ⟨fun k => Nat.zero_le 1, fun k => Nat.zero_le 1⟩
    (fun t ht => goodTaskCheck_sound dbW6 t (hall t ht))
    (Or.inl rfl)

theorem c1_player_extraction_idempotent_witness :
    ∃ db2 : DB,
      (scrape_player_with_driver dbW1 linkW1 pgW1).1.2 = true ∧
      (scrape_player_with_driver
        (scrape_player_with_driver dbW1 linkW1 pgW1).1.1 linkW1 pgW1).1 =
        (db2, true) ∧
      countKey db2.players eW1.fid = 1 ∧
      dictGet db2.players eW1.fid = some (mkFields eW1 1) ∧
      countKey db2.dataRows eW1.fid = 1 ∧
      (∀ f, storedVal db2.dataRows eW1.fid f = (dictGet sdW1 f).getD none) := by
  exact c1_player_extraction_idempotent dbW1 linkW1 pgW1 eW1 (1, pys "PSG", 0)
    sdW1 (by decide) (by decide) (by decide) (by decide) (by decide)
    (by decide) (by decide) (by decide)
